import Mathlib

/-!
A verification development for `main.go` of cassandra-stats.

The program is a one-shot metrics probe.  It opens a database session, samples
CPU and memory, runs `nodetool tablehistograms`, `nodetool compactionstats`,
a row-count query and `df -h`, scans the text each tool printed, and writes
seven `label: value` lines.

Embedding:

* A Go `string` is a `List Char` (`Str`): the text is taken to be valid UTF-8,
  so that splitting on `"\n"`, prefix and substring tests, and the rune-wise
  trimming of `strings.TrimSpace` / `strings.Fields` agree with the byte-level
  operations of Go.
* The outside world (database, OS samplers, child processes) is a record of
  answers, `World`.  Every function that talks to the outside returns the list
  of external calls it made (`Event`) together with its Go result.
* A Go `(value, error)` result is `Res`: `ok v`, `err e`, or `panic msg` for a
  run-time fault such as an index out of range.
* Go `int` is the 64-bit signed integer (`strconv.IntSize = 64`); `uint64`
  arithmetic inside `strconv.ParseUint` is written with an explicit `% 2^64`.
* Floating-point samples are kept abstract: a type parameter `F` of `World`,
  with the function `World.fmtPercent` standing for `fmt.Sprintf("%.2f%%", x)`.
-/

namespace CassandraStats

/-- Go `string`, as the list of its characters. -/
abbrev Str := List Char

/-! ## `unicode`, `strings` -/

namespace unicode

/-- Go `unicode.IsSpace`: the Latin-1 spaces `'\t' '\n' '\v' '\f' '\r' ' '`, U+0085, U+00A0, and
the other code points with the Unicode White_Space property. -/
def IsSpace (r : Char) : Bool :=
  let n := r.toNat
  (9 ≤ n && n ≤ 13) || n == 32 || n == 0x85 || n == 0xA0 || n == 0x1680 ||
  (0x2000 ≤ n && n ≤ 0x200A) || n == 0x2028 || n == 0x2029 || n == 0x202F ||
  n == 0x205F || n == 0x3000

end unicode

namespace strings

/-- Go `strings.Split(s, sep)` for a one-character separator (the program only ever splits on
`"\n"`): the pieces between the separators, so always at least one piece. -/
def Split : Str → Char → List Str
  | [], _ => [[]]
  | c :: cs, sep =>
    if c = sep then [] :: Split cs sep
    else
      match Split cs sep with
      | [] => [[c]]
      | piece :: pieces => (c :: piece) :: pieces

/-- Go `strings.HasPrefix(s, pre)`. -/
def HasPrefix : Str → Str → Bool
  | _, [] => true
  | [], _ :: _ => false
  | c :: cs, p :: ps => c == p && HasPrefix cs ps

/-- Go `strings.Contains(s, substr)`: `substr` occurs at some position of `s`. -/
def Contains : Str → Str → Bool
  | [], substr => HasPrefix [] substr
  | c :: cs, substr => HasPrefix (c :: cs) substr || Contains cs substr

/-- Go `strings.TrimPrefix(s, pre)`: `s` without the leading `pre`, or `s` itself when it does not
start with `pre`. -/
def TrimPrefix (s pre : Str) : Str :=
  if HasPrefix s pre then s.drop pre.length else s

/-- Go `strings.TrimLeftFunc(s, unicode.IsSpace)`. -/
def TrimLeftSpace (s : Str) : Str := s.dropWhile unicode.IsSpace

/-- Go `strings.TrimRightFunc(s, unicode.IsSpace)`. -/
def TrimRightSpace (s : Str) : Str := (s.reverse.dropWhile unicode.IsSpace).reverse

/-- Go `strings.TrimSpace(s)`: all leading and trailing white space removed. -/
def TrimSpace (s : Str) : Str := TrimRightSpace (TrimLeftSpace s)

/-- The scan of `strings.Fields`: `cur` is the field being read. -/
def fieldsFrom : Str → Str → List Str
  | [], cur => if cur.isEmpty then [] else [cur]
  | c :: cs, cur =>
    if unicode.IsSpace c then
      if cur.isEmpty then fieldsFrom cs [] else cur :: fieldsFrom cs []
    else fieldsFrom cs (cur ++ [c])

/-- Go `strings.Fields(s)`: the maximal runs of non-space characters of `s`. -/
def Fields (s : Str) : List Str := fieldsFrom s []

end strings

/-! ## `strconv` -/

namespace strconv

/-- Go `strconv.NumError.Err`: the two ways a conversion fails. -/
inductive NumError where
  | errSyn
  | errRange
  deriving DecidableEq, Repr

/-- Largest `uint64`. -/
def maxUint64 : Nat := 2 ^ 64 - 1

/-- The constant `cutoff` of `ParseUint` for base 10: the smallest number whose tenfold exceeds
`maxUint64`. -/
def cutoff10 : Nat := maxUint64 / 10 + 1

/-- A decimal digit character. -/
def isDigit (c : Char) : Bool := 48 ≤ c.toNat && c.toNat ≤ 57

/-- The `for` loop of Go `strconv.ParseUint(s, 10, 64)`; `n` is the `uint64` accumulator.  A
character that is not a decimal digit is a syntax error with value 0; an overflow of the
accumulator returns at once with `maxUint64` and a range error. -/
def parseUintLoop : Str → Nat → Nat × Option NumError
  | [], n => (n, none)
  | c :: cs, n =>
    if isDigit c then
      let d := c.toNat - 48
      if n ≥ cutoff10 then (maxUint64, some .errRange)
      else
        let n10 := (n * 10) % 2 ^ 64
        let n1 := (n10 + d) % 2 ^ 64
        if n1 < n10 ∨ n1 > maxUint64 then (maxUint64, some .errRange)
        else parseUintLoop cs n1
    else (0, some .errSyn)

/-- Go `strconv.ParseUint(s, 10, 64)`. -/
def ParseUint (s : Str) : Nat × Option NumError :=
  if s.isEmpty then (0, some .errSyn) else parseUintLoop s 0

/-- Go `strconv.ParseInt(s, 10, 0)` with `IntSize = 64`. -/
def ParseInt (s : Str) : Int × Option NumError :=
  match s with
  | [] => (0, some .errSyn)
  | c :: cs =>
    let neg := c == '-'
    let body := if c == '+' || c == '-' then cs else c :: cs
    match ParseUint body with
    | (_, some .errSyn) => (0, some .errSyn)
    | (un, _) =>
      let cutoff : Nat := 2 ^ 63
      if !neg && un ≥ cutoff then ((cutoff : Int) - 1, some .errRange)
      else if neg && un > cutoff then (-(cutoff : Int), some .errRange)
      else (if neg then -(un : Int) else (un : Int), none)

/-- Go `strconv.Atoi(s)`, documented as equivalent to `ParseInt(s, 10, 0)` converted to `int`. -/
def Atoi (s : Str) : Int × Option NumError := ParseInt s

/-- Go `strconv.Itoa(n)`, which is also how `fmt` prints an `int`: the decimal text of `n`. -/
def Itoa (n : Int) : Str :=
  if n < 0 then '-' :: Nat.toDigits 10 n.natAbs else Nat.toDigits 10 n.toNat

end strconv

/-! ## The outside world and the results of a run -/

/-- A child process as built by `exec.Command(name, args...)`: the executable and its argument
list. -/
structure Cmd where
  name : Str
  args : List Str
  deriving DecidableEq

/-- The Go result `(value, error)` of a function, or a run-time panic inside it. -/
inductive Res (α : Type) where
  | ok (a : α)
  | err (e : Str)
  | panic (msg : Str)
  deriving DecidableEq

/-- One interaction of the program with the outside, in the order they happen. -/
inductive Event where
  | createSession (host keyspace : Str)
  | cpuPercent
  | virtualMemory
  | command (c : Cmd)
  | query (q : Str)
  | println (text : Str)
  | fatal (msg : Str)
  | sessionClose
  deriving DecidableEq

/-- How `main` ends: it returns, `log.Fatal` exits the process, or a panic crashes it. -/
inductive Exit where
  | returned
  | fatal
  | panicked (msg : Str)
  deriving DecidableEq

/-- The answers of the outside world.  `F` is the type of the floating-point samples.
Errors are represented by their message. -/
structure World (F : Type) where
  /-- Stands for `fmt.Sprintf("%.2f%%", x)`. -/
  fmtPercent : F → Str
  /-- The error of `cluster.CreateSession()` for a host and keyspace, `none` for a session. -/
  createSession : Str → Str → Option Str
  /-- The result of `cpu.Percent(0, false)`. -/
  cpuPercent : Except Str (List F)
  /-- The field `UsedPercent` of `mem.VirtualMemory()`, or its error. -/
  virtualMemory : Except Str F
  /-- The result of `cmd.CombinedOutput()`: the text the process wrote, or the error of a failed
  start or non-zero exit. -/
  combinedOutput : Cmd → Except Str Str
  /-- For a query text: the value `iter.Scan` stores (`none` when it returns false) and the error
  of `iter.Close()` (`none` for nil). -/
  queryIter : Str → Option Int × Option Str

/-- The events of a run of `main` and the way it ended. -/
abbrev Run := List Event × Exit

/-- What a run wrote to standard output: the texts of its `fmt.Println` calls, in order. -/
def stdout : List Event → List Str
  | [] => []
  | .println text :: es => text :: stdout es
  | _ :: es => stdout es

/-- Go `fmt.Println(label, value)` for two operands: a space between them, a newline after. -/
def Println (label value : Str) : Event := .println (label ++ ' ' :: value ++ ['\n'])

/-! ## The program -/

/-- The `for` loop of `runNodetoolTablehistograms` (lines 90-96), from the current values of
`readLatency` and `writeLatency`. -/
def histogramLoop : List Str → Str → Str → Str × Str
  | [], readLatency, writeLatency => (readLatency, writeLatency)
  | line :: rest, readLatency, writeLatency =>
    if strings.Contains line "Read latency histogram".toList then
      histogramLoop rest
        (strings.TrimSpace (strings.TrimPrefix line "Read latency histogram:".toList)) writeLatency
    else if strings.Contains line "Write latency histogram".toList then
      histogramLoop rest readLatency
        (strings.TrimSpace (strings.TrimPrefix line "Write latency histogram:".toList))
    else histogramLoop rest readLatency writeLatency

/-- Function `runNodetoolTablehistograms` (lines 78-99).  On an error Go returns `"", "", err`; the two
empty strings are not represented. -/
def runNodetoolTablehistograms {F : Type} (w : World F) (nodetoolPath keyspace table : Str) :
    List Event × Res (Str × Str) :=
  let cmd : Cmd := ⟨nodetoolPath ++ "nodetool".toList, ["tablehistograms".toList, keyspace, table]⟩
  match w.combinedOutput cmd with
  | .error err =>
    ([.command cmd], .err ("failed to run nodetool tablehistograms: ".toList ++ err))
  | .ok output =>
    let lines := strings.Split output '\n'
    ([.command cmd], .ok (histogramLoop lines [] []))

/-- The `for` loop of `runNodetoolCompactionstats` (lines 112-118), from the current value of
`pendingCompactions`; the error of `strconv.Atoi` is discarded. -/
def pendingLoop : List Str → Int → Int
  | [], pendingCompactions => pendingCompactions
  | line :: rest, pendingCompactions =>
    if strings.HasPrefix line "pending tasks:".toList then
      (strconv.Atoi (strings.TrimSpace (strings.TrimPrefix line "pending tasks:".toList))).1
    else pendingLoop rest pendingCompactions

/-- Function `runNodetoolCompactionstats` (lines 101-121).  The command is built from the single string
`nodetoolPath + "nodetool compactionstats"`, with no further arguments. -/
def runNodetoolCompactionstats {F : Type} (w : World F) (nodetoolPath : Str) :
    List Event × Res Int :=
  let cmd : Cmd := ⟨nodetoolPath ++ "nodetool compactionstats".toList, []⟩
  match w.combinedOutput cmd with
  | .error err =>
    ([.command cmd], .err ("failed to run nodetool compactionstats: ".toList ++ err))
  | .ok output =>
    let lines := strings.Split output '\n'
    ([.command cmd], .ok (pendingLoop lines 0))

/-- Function `getRowCount` (lines 123-131); `fmt.Sprintf("SELECT COUNT(*) FROM %s.%s", keyspace, table)`
is the query text.  When `iter.Scan` fails the result is `0, iter.Close()`. -/
def getRowCount {F : Type} (w : World F) (keyspace table : Str) : List Event × Res Int :=
  let query := "SELECT COUNT(*) FROM ".toList ++ keyspace ++ '.' :: table
  match w.queryIter query with
  | (some rowCount, _) => ([.query query], .ok rowCount)
  | (none, none) => ([.query query], .ok 0)
  | (none, some e) => ([.query query], .err e)

/-- The `for` loop of `getStorageSpaceUtilization` (lines 144-150).  Indexing a slice outside
its length panics. -/
def storageLoop : List Str → Res Str
  | [] => .ok []
  | line :: rest =>
    let fields := strings.Fields line
    if fields.length ≥ 5 then
      match fields[5]? with
      | none => .panic "index out of range".toList
      | some mount =>
        if mount = "/".toList then
          match fields[4]? with
          | none => .panic "index out of range".toList
          | some storageUtilization => .ok storageUtilization
        else storageLoop rest
    else storageLoop rest

/-- Function `getStorageSpaceUtilization` (lines 133-153). -/
def getStorageSpaceUtilization {F : Type} (w : World F) : List Event × Res Str :=
  let cmd : Cmd := ⟨"df".toList, ["-h".toList]⟩
  match w.combinedOutput cmd with
  | .error err => ([.command cmd], .err ("failed to run df command: ".toList ++ err))
  | .ok output =>
    let lines := strings.Split output '\n'
    ([.command cmd], storageLoop lines)

/-- One step of `main`: run `step`; `if err != nil { log.Fatal(msg, err) }`; otherwise go on with
the value.  `log.Fatal` prints its operands like `fmt.Sprint` (no space next to a string operand)
and exits the process. -/
def orFatal {α : Type} (step : List Event × Res α) (msg : Str) (next : α → Run) : Run :=
  match step with
  | (events, .ok a) => (events ++ (next a).1, (next a).2)
  | (events, .err e) => (events ++ [.fatal (msg ++ e)], .fatal)
  | (events, .panic m) => (events, .panicked m)

/-- The statement `defer session.Close()`: the session is closed when `main` returns or panics,
not when `log.Fatal` exits the process. -/
def deferClose (body : Run) : Run :=
  match body.2 with
  | .fatal => body
  | _ => (body.1 ++ [.sessionClose], body.2)

/-- The call `cluster.CreateSession()` of lines 18-20. -/
def createSession {F : Type} (w : World F) : List Event × Res Unit :=
  let host := "127.0.0.1".toList
  let keyspace := "go".toList
  match w.createSession host keyspace with
  | some e => ([.createSession host keyspace], .err e)
  | none => ([.createSession host keyspace], .ok ())

/-- Lines 30-34: `cpu.Percent(0, false)`. -/
def cpuPercent {F : Type} (w : World F) : List Event × Res (List F) :=
  match w.cpuPercent with
  | .error e => ([.cpuPercent], .err e)
  | .ok samples => ([.cpuPercent], .ok samples)

/-- Lines 37-41: `mem.VirtualMemory()`. -/
def virtualMemory {F : Type} (w : World F) : List Event × Res F :=
  match w.virtualMemory with
  | .error e => ([.virtualMemory], .err e)
  | .ok usedPercent => ([.virtualMemory], .ok usedPercent)

/-- The seven `fmt.Println` calls of lines 69-75. -/
def report (cpuUsage memUsage readLatency writeLatency : Str) (pendingCompactions
    activeConnections : Int) (storageUtilization : Str) : List Event :=
  [ Println "cpu:".toList cpuUsage,
    Println "memory:".toList memUsage,
    Println "read_latency:".toList readLatency,
    Println "write_latency:".toList writeLatency,
    Println "pending_compactions:".toList (strconv.Itoa pendingCompactions),
    Println "active_connections:".toList (strconv.Itoa activeConnections),
    Println "storage_utilization:".toList storageUtilization ]

/-- Function `main` (lines 15-76): the steps in program order, each followed by its
`log.Fatal` check, then the seven output lines. -/
def main {F : Type} (w : World F) : Run :=
  orFatal (createSession w) "Failed to connect to Cassandra:".toList fun _ =>
  deferClose <|
  let nodetoolPath := "/Downloads/dse/bin/".toList
  orFatal (cpuPercent w) "Failed to get CPU usage:".toList fun samples =>
  match samples[0]? with
  | none => ([], .panicked "index out of range".toList)
  | some sample =>
  let cpuUsage := w.fmtPercent sample
  orFatal (virtualMemory w) "Failed to get memory usage:".toList fun usedPercent =>
  let memUsage := w.fmtPercent usedPercent
  orFatal (runNodetoolTablehistograms w nodetoolPath "go".toList "stats".toList)
    "Failed to get tablehistograms:".toList fun latencies =>
  orFatal (runNodetoolCompactionstats w nodetoolPath)
    "Failed to get compactionstats:".toList fun pendingCompactions =>
  orFatal (getRowCount w "dse_perf".toList "user_io".toList)
    "Failed to get row count:".toList fun activeConnections =>
  orFatal (getStorageSpaceUtilization w)
    "Failed to get storage space utilization:".toList fun storageUtilization =>
  (report cpuUsage memUsage latencies.1 latencies.2 pendingCompactions activeConnections
    storageUtilization, .returned)

/-! ## Vocabulary of the claims on integers -/

/-- The number written by the decimal digits `ds`, most significant first, continuing from the
number `n` read so far. -/
def decimalValue : Str → Nat → Nat
  | [], n => n
  | c :: cs, n => decimalValue cs (n * 10 + (c.toNat - 48))

/-- A text without its leading sign `+` or `-`, if it has one. -/
def unsignedPart : Str → Str
  | [] => []
  | c :: cs => if c == '+' || c == '-' then cs else c :: cs

/-- A valid integer text: an optional sign followed by one or more decimal digits. -/
def isIntegerText (r : Str) : Bool :=
  !(unsignedPart r).isEmpty && (unsignedPart r).all strconv.isDigit

/-- The run of decimal digits at the start of a text, after its optional sign. -/
def leadingDigits (r : Str) : Str := (unsignedPart r).takeWhile strconv.isDigit

/-- The integer a valid integer text denotes: its digits read in base ten, negated after a
minus sign. -/
def integerValue (r : Str) : Int :=
  if r.head? = some '-' then -(decimalValue (unsignedPart r) 0 : Int)
  else (decimalValue (unsignedPart r) 0 : Int)

/-- Trimming, stated on its own: `t` is `s` with its leading and trailing white space removed,
that is, `s` is `t` between two runs of white space and `t` neither starts nor ends with a
white-space character. -/
def IsTrimmed (s t : Str) : Prop :=
  ∃ lead trail : Str, s = lead ++ t ++ trail ∧
    (∀ c ∈ lead, unicode.IsSpace c = true) ∧ (∀ c ∈ trail, unicode.IsSpace c = true) ∧
    (∀ c, t.head? = some c → unicode.IsSpace c = false) ∧
    (∀ c, t.getLast? = some c → unicode.IsSpace c = false)

/-- The external calls of a complete run of `main`, in program order (lines 20, 30, 37, 44, 50,
56 and 63): session, CPU, memory, histogram tool, compaction tool, row count, disk usage. -/
def collectionSteps : List Event :=
  [ .createSession "127.0.0.1".toList "go".toList,
    .cpuPercent,
    .virtualMemory,
    .command ⟨"/Downloads/dse/bin/nodetool".toList,
      ["tablehistograms".toList, "go".toList, "stats".toList]⟩,
    .command ⟨"/Downloads/dse/bin/nodetool compactionstats".toList, []⟩,
    .query "SELECT COUNT(*) FROM dse_perf.user_io".toList,
    .command ⟨"df".toList, ["-h".toList]⟩ ]

/-! ## Sample worlds -/

/-- A world in which every call succeeds: the histogram tool prints `histograms`, the compaction
tool `compaction`, `df -h` prints `df`, and the row count is `rows`.  Samples are already
formatted texts. -/
def sampleWorld (histograms compaction df : Str) (rows : Int) : World Str where
  fmtPercent := fun x => x
  createSession := fun _ _ => none
  cpuPercent := .ok ["12.34%".toList]
  virtualMemory := .ok "56.78%".toList
  combinedOutput := fun c =>
    if c.name = "df".toList then .ok df
    else if c.args = [] then .ok compaction
    else .ok histograms
  queryIter := fun _ => (some rows, none)

/-- A host on which the administration tool is installed as `/Downloads/dse/bin/nodetool` and
`df` is on the path; starting any other executable fails. -/
def installedWorld : World Str where
  fmtPercent := fun x => x
  createSession := fun _ _ => none
  cpuPercent := .ok ["12.34%".toList]
  virtualMemory := .ok "56.78%".toList
  combinedOutput := fun c =>
    if c.name = "/Downloads/dse/bin/nodetool".toList then .ok "pending tasks: 0".toList
    else if c.name = "df".toList then .ok "/dev/sda1 100G 40G 60G 40% /".toList
    else .error "no such file or directory".toList
  queryIter := fun _ => (some 3, none)

/-- A world in which exactly the external call number `step` of `collectionSteps` (counted
from 1) fails with the error `down`, and every other call succeeds. -/
def failingWorld (step : Nat) : World Str where
  fmtPercent := fun x => x
  createSession := fun _ _ => if step = 1 then some "down".toList else none
  cpuPercent := if step = 2 then .error "down".toList else .ok ["12.34%".toList]
  virtualMemory := if step = 3 then .error "down".toList else .ok "56.78%".toList
  combinedOutput := fun c =>
    if c.name = "/Downloads/dse/bin/nodetool".toList then
      if step = 4 then .error "down".toList else .ok "Read latency histogram: 5 ms".toList
    else if c.name = "/Downloads/dse/bin/nodetool compactionstats".toList then
      if step = 5 then .error "down".toList else .ok "pending tasks: 7".toList
    else
      if step = 7 then .error "down".toList else .ok "/dev/sda1 100G 40G 60G 40% /".toList
  queryIter := fun _ => if step = 6 then (none, some "down".toList) else (some 3, none)

/-! ## The library model on concrete texts -/

theorem strings_model_examples :
    strings.Split "a\nb\n".toList '\n' = ["a".toList, "b".toList, []] ∧
    strings.Split [] '\n' = [[]] ∧
    strings.TrimSpace "  a b \t\r".toList = "a b".toList ∧
    strings.TrimPrefix "pending tasks: 7".toList "pending tasks:".toList = " 7".toList ∧
    strings.TrimPrefix "x pending tasks: 7".toList "pending tasks:".toList
      = "x pending tasks: 7".toList ∧
    strings.Contains "the Read latency histogram".toList "Read latency histogram".toList = true ∧
    strings.Fields " /dev/sda1  100G 40G\t60G 40% /".toList
      = ["/dev/sda1".toList, "100G".toList, "40G".toList, "60G".toList, "40%".toList,
          "/".toList] ∧
    strings.Fields "  ".toList = [] := by
  decide

theorem strconv_model_examples :
    strconv.Atoi "7".toList = (7, none) ∧
    strconv.Atoi "+007".toList = (7, none) ∧
    strconv.Atoi "-12".toList = (-12, none) ∧
    strconv.Atoi [] = (0, some .errSyn) ∧
    strconv.Atoi "-".toList = (0, some .errSyn) ∧
    strconv.Atoi "abc".toList = (0, some .errSyn) ∧
    strconv.Atoi "1_000".toList = (0, some .errSyn) ∧
    strconv.Atoi "9223372036854775807".toList = (9223372036854775807, none) ∧
    strconv.Atoi "9223372036854775808".toList = (9223372036854775807, some .errRange) ∧
    strconv.Atoi "-9223372036854775808".toList = (-9223372036854775808, none) ∧
    strconv.Atoi "-9223372036854775809".toList = (-9223372036854775808, some .errRange) ∧
    strconv.Atoi "9999999999999999999x".toList = (0, some .errSyn) ∧
    strconv.Atoi "99999999999999999999x".toList = (9223372036854775807, some .errRange) ∧
    strconv.Itoa (-120) = "-120".toList ∧
    strconv.Itoa 0 = "0".toList := by
  decide

/-! ## Lemmas on `strings` -/

theorem hasPrefix_append (pre rest : Str) : strings.HasPrefix (pre ++ rest) pre = true := by
  induction pre with
  | nil => cases rest <;> rfl
  | cons p ps ih => simpa [strings.HasPrefix] using ih

theorem hasPrefix_append_right (s pre more : Str) (h : strings.HasPrefix s (pre ++ more) = true) :
    strings.HasPrefix s pre = true := by
  induction pre generalizing s with
  | nil => cases s <;> rfl
  | cons p ps ih =>
    cases s with
    | nil => simp [strings.HasPrefix] at h
    | cons c cs =>
      simp only [List.cons_append, strings.HasPrefix, Bool.and_eq_true] at h ⊢
      exact ⟨h.1, ih cs h.2⟩

theorem contains_of_hasPrefix (s sub : Str) (h : strings.HasPrefix s sub = true) :
    strings.Contains s sub = true := by
  cases s with
  | nil => simpa [strings.Contains] using h
  | cons c cs => simp [strings.Contains, h]

theorem trimPrefix_append (pre rest : Str) : strings.TrimPrefix (pre ++ rest) pre = rest := by
  simp [strings.TrimPrefix, hasPrefix_append]

theorem trimSpace_cons_space (s : Str) : strings.TrimSpace (' ' :: s) = strings.TrimSpace s := by
  have h : unicode.IsSpace ' ' = true := by decide
  simp [strings.TrimSpace, strings.TrimLeftSpace, List.dropWhile, h]

theorem hasPrefix_iff_isPrefix (s pre : Str) :
    strings.HasPrefix s pre = true ↔ pre <+: s := by
  induction pre generalizing s with
  | nil =>
    constructor
    · intro _
      exact List.nil_prefix
    · intro _
      cases s <;> rfl
  | cons p ps ih =>
    cases s with
    | nil =>
      constructor
      · intro h
        simp [strings.HasPrefix] at h
      · intro h
        exact absurd (List.prefix_nil.mp h) (List.cons_ne_nil p ps)
    | cons c cs =>
      simp only [strings.HasPrefix, Bool.and_eq_true, beq_iff_eq, List.cons_prefix_cons, ih cs]
      constructor
      · rintro ⟨h1, h2⟩
        exact ⟨h1.symm, h2⟩
      · rintro ⟨h1, h2⟩
        exact ⟨h1.symm, h2⟩

theorem head_dropWhile_space (s : Str) (c : Char)
    (h : (s.dropWhile unicode.IsSpace).head? = some c) : unicode.IsSpace c = false := by
  induction s with
  | nil => simp at h
  | cons d more ih =>
    by_cases hd : unicode.IsSpace d = true
    · rw [List.dropWhile_cons_of_pos hd] at h
      exact ih h
    · rw [List.dropWhile_cons_of_neg hd, List.head?_cons] at h
      rw [← Option.some.inj h]
      simpa using hd

/-- The model of `strings.TrimSpace` meets the specification of trimming. -/
theorem trimSpace_isTrimmed (s : Str) : IsTrimmed s (strings.TrimSpace s) := by
  have hleft := List.takeWhile_append_dropWhile unicode.IsSpace s
  have hright := List.takeWhile_append_dropWhile unicode.IsSpace
    (s.dropWhile unicode.IsSpace).reverse
  have hmid : s.dropWhile unicode.IsSpace
      = ((s.dropWhile unicode.IsSpace).reverse.dropWhile unicode.IsSpace).reverse
        ++ ((s.dropWhile unicode.IsSpace).reverse.takeWhile unicode.IsSpace).reverse := by
    rw [← List.reverse_append, hright, List.reverse_reverse]
  refine ⟨s.takeWhile unicode.IsSpace,
    ((s.dropWhile unicode.IsSpace).reverse.takeWhile unicode.IsSpace).reverse, ?_, ?_, ?_, ?_, ?_⟩
  · simp only [strings.TrimSpace, strings.TrimRightSpace, strings.TrimLeftSpace]
    rw [List.append_assoc, ← hmid, hleft]
  · intro c hc
    exact List.mem_takeWhile_imp hc
  · intro c hc
    exact List.mem_takeWhile_imp (List.mem_reverse.mp hc)
  · intro c hc
    simp only [strings.TrimSpace, strings.TrimRightSpace, strings.TrimLeftSpace] at hc
    apply head_dropWhile_space s c
    rw [hmid]
    cases ht : ((s.dropWhile unicode.IsSpace).reverse.dropWhile unicode.IsSpace).reverse with
    | nil =>
      rw [ht] at hc
      simp at hc
    | cons d more =>
      rw [ht] at hc
      rw [List.cons_append, List.head?_cons]
      rw [List.head?_cons] at hc
      exact hc
  · intro c hc
    simp only [strings.TrimSpace, strings.TrimRightSpace, strings.TrimLeftSpace,
      List.getLast?_reverse] at hc
    exact head_dropWhile_space _ c hc

/-! ## Lemmas on the histogram scan -/

theorem histogramLoop_append (l1 l2 : List Str) (r wl : Str) :
    histogramLoop (l1 ++ l2) r wl
      = histogramLoop l2 (histogramLoop l1 r wl).1 (histogramLoop l1 r wl).2 := by
  induction l1 generalizing r wl with
  | nil => rfl
  | cons line rest ih =>
    simp only [List.cons_append, histogramLoop]
    split
    · exact ih _ _
    · split
      · exact ih _ _
      · exact ih _ _

theorem histogramLoop_read_unchanged (ls : List Str) (r wl : Str)
    (h : ∀ l ∈ ls, strings.Contains l "Read latency histogram".toList = false) :
    (histogramLoop ls r wl).1 = r := by
  induction ls generalizing wl with
  | nil => rfl
  | cons line rest ih =>
    have hline := h line (List.mem_cons_self _ _)
    have hrest : ∀ l ∈ rest, strings.Contains l "Read latency histogram".toList = false :=
      fun l hl => h l (List.mem_cons_of_mem _ hl)
    simp only [histogramLoop, hline, Bool.false_eq_true, if_false]
    split
    · exact ih _ hrest
    · exact ih _ hrest

theorem histogramLoop_write_unchanged (ls : List Str) (r wl : Str)
    (h : ∀ l ∈ ls, strings.Contains l "Write latency histogram".toList = false) :
    (histogramLoop ls r wl).2 = wl := by
  induction ls generalizing r with
  | nil => rfl
  | cons line rest ih =>
    have hline := h line (List.mem_cons_self _ _)
    have hrest : ∀ l ∈ rest, strings.Contains l "Write latency histogram".toList = false :=
      fun l hl => h l (List.mem_cons_of_mem _ hl)
    simp only [histogramLoop, hline, Bool.false_eq_true, if_false]
    split
    · exact ih _ hrest
    · exact ih _ hrest

theorem histogramLoop_read_last (l1 l2 : List Str) (line r wl : Str)
    (hline : strings.Contains line "Read latency histogram".toList = true)
    (hlast : ∀ l ∈ l2, strings.Contains l "Read latency histogram".toList = false) :
    (histogramLoop (l1 ++ line :: l2) r wl).1
      = strings.TrimSpace (strings.TrimPrefix line "Read latency histogram:".toList) := by
  rw [histogramLoop_append]
  simp only [histogramLoop, hline, if_true]
  exact histogramLoop_read_unchanged l2 _ _ hlast

theorem tablehistograms_ok {F : Type} (w : World F) (nodetoolPath keyspace table output : Str)
    (hrun : w.combinedOutput
      ⟨nodetoolPath ++ "nodetool".toList, ["tablehistograms".toList, keyspace, table]⟩
        = .ok output) :
    runNodetoolTablehistograms w nodetoolPath keyspace table
      = ([.command ⟨nodetoolPath ++ "nodetool".toList,
            ["tablehistograms".toList, keyspace, table]⟩],
         .ok (histogramLoop (strings.Split output '\n') [] [])) := by
  unfold runNodetoolTablehistograms
  simp only [hrun]

/-! ## Claims on `runNodetoolTablehistograms` -/

/-- C10: when the administration tool succeeds and some line of its output contains the text
`Read latency histogram`, no error is returned and the read latency is computed from the last
such line alone, whatever the lines before it (`l1`) are.  If that line is
`Read latency histogram:` followed by `rest`, the read latency is `rest` trimmed; if the line
does not start with `Read latency histogram:`, it is the whole line trimmed.  Trimmed means:
the text lies between two runs of white space of the untrimmed one and neither starts nor ends
with white space. -/
theorem read_latency_from_last_matching_line {F : Type} (w : World F)
    (nodetoolPath keyspace table output line : Str) (l1 l2 : List Str)
    (hrun : w.combinedOutput
      ⟨nodetoolPath ++ "nodetool".toList, ["tablehistograms".toList, keyspace, table]⟩
        = .ok output)
    (hsplit : strings.Split output '\n' = l1 ++ line :: l2)
    (hline : strings.Contains line "Read latency histogram".toList = true)
    (hlast : ∀ l ∈ l2, strings.Contains l "Read latency histogram".toList = false) :
    ∃ readLatency writeLatency,
      (runNodetoolTablehistograms w nodetoolPath keyspace table).2
        = .ok (readLatency, writeLatency) ∧
      (∀ rest, line = "Read latency histogram:".toList ++ rest →
        readLatency = strings.TrimSpace rest ∧ IsTrimmed rest readLatency) ∧
      (¬ "Read latency histogram:".toList <+: line →
        readLatency = strings.TrimSpace line ∧ IsTrimmed line readLatency) := by
  have hread := histogramLoop_read_last l1 l2 line [] [] hline hlast
  rw [tablehistograms_ok w nodetoolPath keyspace table output hrun, hsplit]
  refine ⟨(histogramLoop (l1 ++ line :: l2) [] []).1,
    (histogramLoop (l1 ++ line :: l2) [] []).2, rfl, ?_, ?_⟩
  · intro rest hrest
    have hcut : strings.TrimPrefix ("Read latency histogram:".toList ++ rest)
        "Read latency histogram:".toList = rest := by
      simp only [strings.TrimPrefix, hasPrefix_append, if_true, List.drop_left]
    rw [hread, hrest, hcut]
    exact ⟨rfl, trimSpace_isTrimmed rest⟩
  · intro hno
    have hfalse : strings.HasPrefix line "Read latency histogram:".toList = false := by
      cases hp : strings.HasPrefix line "Read latency histogram:".toList with
      | false => rfl
      | true => exact absurd ((hasPrefix_iff_isPrefix line _).mp hp) hno
    have hkeep : strings.TrimPrefix line "Read latency histogram:".toList = line := by
      simp only [strings.TrimPrefix, hfalse, Bool.false_eq_true, if_false]
    rw [hread, hkeep]
    exact ⟨rfl, trimSpace_isTrimmed line⟩

/-- Witness for C10.  In the first output the last matching line is
`Read latency histogram:  5 ms ` and the read latency is `5 ms`, not the `1` of the matching
line before it.  In the second the last matching line ` xx Read latency histogram 2 ` does not
start with the prefix and the read latency is `xx Read latency histogram 2`. -/
theorem read_latency_from_last_matching_line_witness :
    (∃ writeLatency, (runNodetoolTablehistograms
        (sampleWorld "Read latency histogram: 1\nRead latency histogram:  5 ms \nend".toList
          [] [] 0) "/bin/".toList "go".toList "stats".toList).2
      = .ok ("5 ms".toList, writeLatency)) ∧
    (∃ writeLatency, (runNodetoolTablehistograms
        (sampleWorld "Read latency histogram: 1\n xx Read latency histogram 2 \nend".toList
          [] [] 0) "/bin/".toList "go".toList "stats".toList).2
      = .ok ("xx Read latency histogram 2".toList, writeLatency)) ∧
    runNodetoolTablehistograms
        (sampleWorld "Read latency histogram: 1\nRead latency histogram:  5 ms \nend".toList
          [] [] 0) "/bin/".toList "go".toList "stats".toList
      = ([.command ⟨"/bin/nodetool".toList,
            ["tablehistograms".toList, "go".toList, "stats".toList]⟩],
          .ok ("5 ms".toList, [])) := by
  refine ⟨?_, ?_, by decide⟩
  · obtain ⟨r, wl, hres, hpre, -⟩ := read_latency_from_last_matching_line
      (sampleWorld "Read latency histogram: 1\nRead latency histogram:  5 ms \nend".toList
        [] [] 0) "/bin/".toList "go".toList "stats".toList
      "Read latency histogram: 1\nRead latency histogram:  5 ms \nend".toList
      "Read latency histogram:  5 ms ".toList
      ["Read latency histogram: 1".toList] ["end".toList]
      rfl (by decide) (by decide) (by decide)
    have hr : r = "5 ms".toList := (hpre "  5 ms ".toList (by decide)).1.trans (by decide)
    exact ⟨wl, by rw [hres, hr]⟩
  · obtain ⟨r, wl, hres, -, hno⟩ := read_latency_from_last_matching_line
      (sampleWorld "Read latency histogram: 1\n xx Read latency histogram 2 \nend".toList
        [] [] 0) "/bin/".toList "go".toList "stats".toList
      "Read latency histogram: 1\n xx Read latency histogram 2 \nend".toList
      " xx Read latency histogram 2 ".toList
      ["Read latency histogram: 1".toList] ["end".toList]
      rfl (by decide) (by decide) (by decide)
    have hr : r = "xx Read latency histogram 2".toList :=
      (hno (by decide)).1.trans (by decide)
    exact ⟨wl, by rw [hres, hr]⟩

/-- C1, refuted as stated: the output `Read latency histogram: a`, `Read latency histogram: b`
contains the line `Read latency histogram: a`, yet the read latency returned is `b`, which is
not `a` trimmed. -/
theorem read_latency_first_line_counterexample :
    "Read latency histogram: a".toList
        ∈ strings.Split "Read latency histogram: a\nRead latency histogram: b".toList '\n' ∧
    (runNodetoolTablehistograms
        (sampleWorld "Read latency histogram: a\nRead latency histogram: b".toList [] [] 0)
        "/Downloads/dse/bin/".toList "go".toList "stats".toList).2
      = .ok ("b".toList, []) ∧
    strings.TrimSpace "a".toList ≠ "b".toList := by
  decide

/-- C1, amended: when the administration tool succeeds and its output has a line
`Read latency histogram:` followed by `rest`, after which no line contains the text
`Read latency histogram`, the read latency returned is `rest` trimmed of surrounding white
space, and no error is returned.  For a line `Read latency histogram: X` (`rest` is a blank and
`X`) that is `X` trimmed. -/
theorem read_latency_of_last_histogram_line {F : Type} (w : World F)
    (nodetoolPath keyspace table output rest : Str) (l1 l2 : List Str)
    (hrun : w.combinedOutput
      ⟨nodetoolPath ++ "nodetool".toList, ["tablehistograms".toList, keyspace, table]⟩
        = .ok output)
    (hsplit : strings.Split output '\n'
      = l1 ++ ("Read latency histogram:".toList ++ rest) :: l2)
    (hlast : ∀ l ∈ l2, strings.Contains l "Read latency histogram".toList = false) :
    (∃ writeLatency, (runNodetoolTablehistograms w nodetoolPath keyspace table).2
      = .ok (strings.TrimSpace rest, writeLatency)) ∧
    (∀ X, rest = ' ' :: X →
      ∃ writeLatency, (runNodetoolTablehistograms w nodetoolPath keyspace table).2
        = .ok (strings.TrimSpace X, writeLatency)) := by
  have hkey : strings.Contains ("Read latency histogram:".toList ++ rest)
      "Read latency histogram".toList = true := by
    apply contains_of_hasPrefix
    apply hasPrefix_append_right _ _ [':']
    exact hasPrefix_append "Read latency histogram:".toList rest
  have hread : (histogramLoop (l1 ++ ("Read latency histogram:".toList ++ rest) :: l2) [] []).1
      = strings.TrimSpace rest := by
    rw [histogramLoop_read_last l1 l2 _ [] [] hkey hlast, trimPrefix_append]
  rw [tablehistograms_ok w nodetoolPath keyspace table output hrun, hsplit]
  refine ⟨⟨(histogramLoop (l1 ++ ("Read latency histogram:".toList ++ rest) :: l2) [] []).2, ?_⟩,
    ?_⟩
  · rw [← hread]
  · intro X hX
    refine ⟨(histogramLoop (l1 ++ ("Read latency histogram:".toList ++ rest) :: l2) [] []).2, ?_⟩
    rw [← trimSpace_cons_space X, ← hX, ← hread]

/-- Witness for C1 amended: the line `Read latency histogram: 5 ms ` comes last among the
matching lines and gives `5 ms`. -/
theorem read_latency_of_last_histogram_line_witness :
    (∃ writeLatency, (runNodetoolTablehistograms
        (sampleWorld "Read latency histogram: 1\nRead latency histogram: 5 ms \nend".toList
          [] [] 0) "/bin/".toList "go".toList "stats".toList).2
      = .ok ("5 ms".toList, writeLatency)) ∧
    strings.TrimSpace " 5 ms ".toList = "5 ms".toList :=
  ⟨(read_latency_of_last_histogram_line
      (sampleWorld "Read latency histogram: 1\nRead latency histogram: 5 ms \nend".toList [] [] 0)
      "/bin/".toList "go".toList "stats".toList
      "Read latency histogram: 1\nRead latency histogram: 5 ms \nend".toList " 5 ms ".toList
      ["Read latency histogram: 1".toList] ["end".toList]
      rfl (by decide) (by decide)).1, by decide⟩

/-- C2, refuted as stated: in the output `the Read latency histogram` no line begins with
`Read latency histogram:`, yet the read latency returned is the whole line, not the empty
string; likewise for `a Write latency histogram` and the write latency. -/
theorem latency_empty_without_prefix_counterexample :
    (∀ line ∈ strings.Split "the Read latency histogram\na Write latency histogram".toList '\n',
      strings.HasPrefix line "Read latency histogram:".toList = false ∧
      strings.HasPrefix line "Write latency histogram:".toList = false) ∧
    (runNodetoolTablehistograms
        (sampleWorld "the Read latency histogram\na Write latency histogram".toList [] [] 0)
        "/Downloads/dse/bin/".toList "go".toList "stats".toList).2
      = .ok ("the Read latency histogram".toList, "a Write latency histogram".toList) := by
  decide

/-- C2, amended: when the administration tool succeeds, no error is returned; the read latency
is the empty string if no line of the output contains the text `Read latency histogram`, and
the write latency is the empty string if no line contains the text
`Write latency histogram`. -/
theorem latency_empty_without_matching_line {F : Type} (w : World F)
    (nodetoolPath keyspace table output : Str)
    (hrun : w.combinedOutput
      ⟨nodetoolPath ++ "nodetool".toList, ["tablehistograms".toList, keyspace, table]⟩
        = .ok output) :
    ∃ readLatency writeLatency,
      (runNodetoolTablehistograms w nodetoolPath keyspace table).2
        = .ok (readLatency, writeLatency) ∧
      ((∀ line ∈ strings.Split output '\n',
          strings.Contains line "Read latency histogram".toList = false) → readLatency = []) ∧
      ((∀ line ∈ strings.Split output '\n',
          strings.Contains line "Write latency histogram".toList = false) →
        writeLatency = []) := by
  rw [tablehistograms_ok w nodetoolPath keyspace table output hrun]
  exact ⟨_, _, rfl, histogramLoop_read_unchanged _ [] [], histogramLoop_write_unchanged _ [] []⟩

/-- Witness for C2 amended: an output without any histogram line gives two empty strings. -/
theorem latency_empty_without_matching_line_witness :
    (runNodetoolTablehistograms (sampleWorld "go/stats histograms\nPercentile".toList [] [] 0)
        "/bin/".toList "go".toList "stats".toList).2 = .ok ([], []) := by
  obtain ⟨r, wl, hres, hr, hw⟩ := latency_empty_without_matching_line
    (sampleWorld "go/stats histograms\nPercentile".toList [] [] 0)
    "/bin/".toList "go".toList "stats".toList "go/stats histograms\nPercentile".toList
    rfl
  rw [hres, hr (by decide), hw (by decide)]

/-! ## Claims on `getStorageSpaceUtilization` -/

theorem storageLoop_skip (l1 rest : List Str)
    (h : ∀ l ∈ l1, (strings.Fields l).length ≠ 5 ∧ (strings.Fields l)[5]? ≠ some "/".toList) :
    storageLoop (l1 ++ rest) = storageLoop rest := by
  induction l1 with
  | nil => rfl
  | cons line more ih =>
    have hline := h line (List.mem_cons_self _ _)
    have hmore := ih fun l hl => h l (List.mem_cons_of_mem _ hl)
    simp only [List.cons_append, storageLoop]
    split
    · next hlen =>
      have h6 : 5 < (strings.Fields line).length := by omega
      rw [List.getElem?_eq_getElem h6]
      have hne : (strings.Fields line)[5] ≠ "/".toList := by
        intro heq
        apply hline.2
        rw [List.getElem?_eq_getElem h6, heq]
      simp only [hne, if_false]
      exact hmore
    · exact hmore

theorem storageLoop_root (line : Str) (rest : List Str)
    (h : (strings.Fields line)[5]? = some "/".toList) :
    ∃ utilization, (strings.Fields line)[4]? = some utilization ∧
      storageLoop (line :: rest) = .ok utilization := by
  have h6 : 5 < (strings.Fields line).length := by
    by_contra hlt
    rw [List.getElem?_eq_none (by omega)] at h
    exact Option.noConfusion h
  have h5 : (strings.Fields line).length ≥ 5 := by omega
  refine ⟨(strings.Fields line)[4], List.getElem?_eq_getElem (by omega), ?_⟩
  simp only [storageLoop, h5, if_true, h, List.getElem?_eq_getElem (show 4 <
    (strings.Fields line).length by omega)]

theorem storage_ok {F : Type} (w : World F) (output : Str)
    (hrun : w.combinedOutput ⟨"df".toList, ["-h".toList]⟩ = .ok output) :
    getStorageSpaceUtilization w
      = ([.command ⟨"df".toList, ["-h".toList]⟩], storageLoop (strings.Split output '\n')) := by
  unfold getStorageSpaceUtilization
  simp only [hrun]

/-- C4, refuted as stated.  In the first output the only line whose fields are the six
`device size used available utilization /` is the second one, with utilization `40%`, yet the
function returns `99%`, taken from the seven-field line before it.  In the second output the
same line is present, but the scan panics on the five-field line before it. -/
theorem storage_first_six_field_line_counterexample :
    strings.Fields "/dev/sda1 100G 40G 60G 40% /".toList
      = ["/dev/sda1".toList, "100G".toList, "40G".toList, "60G".toList, "40%".toList,
          "/".toList] ∧
    (∀ line ∈ strings.Split "x x x x 99% / extra\n/dev/sda1 100G 40G 60G 40% /".toList '\n',
      (strings.Fields line).length = 6 → line = "/dev/sda1 100G 40G 60G 40% /".toList) ∧
    (getStorageSpaceUtilization
        (sampleWorld [] [] "x x x x 99% / extra\n/dev/sda1 100G 40G 60G 40% /".toList 0)).2
      = .ok "99%".toList ∧
    "/dev/sda1 100G 40G 60G 40% /".toList
      ∈ strings.Split "a b c d e\n/dev/sda1 100G 40G 60G 40% /".toList '\n' ∧
    (getStorageSpaceUtilization
        (sampleWorld [] [] "a b c d e\n/dev/sda1 100G 40G 60G 40% /".toList 0)).2
      = .panic "index out of range".toList := by
  decide

/-- C4, amended: when `df -h` succeeds and its output has a line with at least six fields whose
sixth field is `/`, and no earlier line has exactly five fields or has `/` as its sixth field,
the function returns the fifth field of that line and no error. -/
theorem storage_utilization_of_first_root_line {F : Type} (w : World F)
    (output line : Str) (l1 l2 : List Str)
    (hrun : w.combinedOutput ⟨"df".toList, ["-h".toList]⟩ = .ok output)
    (hsplit : strings.Split output '\n' = l1 ++ line :: l2)
    (hbefore : ∀ l ∈ l1,
      (strings.Fields l).length ≠ 5 ∧ (strings.Fields l)[5]? ≠ some "/".toList)
    (hroot : (strings.Fields line)[5]? = some "/".toList) :
    ∃ utilization, (strings.Fields line)[4]? = some utilization ∧
      (getStorageSpaceUtilization w).2 = .ok utilization := by
  rw [storage_ok w output hrun, hsplit, storageLoop_skip l1 _ hbefore]
  exact storageLoop_root line l2 hroot

/-- Witness for C4 amended: after the header of `df -h`, the line
`/dev/sda1 100G 40G 60G 40% /` gives `40%`. -/
theorem storage_utilization_of_first_root_line_witness :
    (getStorageSpaceUtilization (sampleWorld [] []
      "Filesystem Size Used Avail Use% Mounted on\n/dev/sda1 100G 40G 60G 40% /\n".toList 0)).2
      = .ok "40%".toList := by
  obtain ⟨u, hu, hres⟩ := storage_utilization_of_first_root_line
    (sampleWorld [] []
      "Filesystem Size Used Avail Use% Mounted on\n/dev/sda1 100G 40G 60G 40% /\n".toList 0)
    "Filesystem Size Used Avail Use% Mounted on\n/dev/sda1 100G 40G 60G 40% /\n".toList
    "/dev/sda1 100G 40G 60G 40% /".toList
    ["Filesystem Size Used Avail Use% Mounted on".toList] [[]]
    rfl (by decide) (by decide) (by decide)
  have h40 : u = "40%".toList := by
    have h4 : (strings.Fields "/dev/sda1 100G 40G 60G 40% /".toList)[4]? = some "40%".toList := by
      decide
    rw [h4] at hu
    exact (Option.some.inj hu).symm
  rw [hres, h40]

/-- C5, the code at the failing input: in this output of `df -h` no field of any line is `/`,
and the third line has exactly five fields; the guard `len(fields) >= 5` lets it through and
`fields[5]` panics, so no empty string is returned. -/
theorem storage_five_field_line_panics :
    (∀ line ∈ strings.Split
        "Filesystem Size Used Avail Use% Mounted on\n/dev/mapper/vg-home\n 100G 40G 60G 40% /home".toList
        '\n', ∀ field ∈ strings.Fields line, field ≠ "/".toList) ∧
    (strings.Fields " 100G 40G 60G 40% /home".toList).length = 5 ∧
    (getStorageSpaceUtilization (sampleWorld [] []
        "Filesystem Size Used Avail Use% Mounted on\n/dev/mapper/vg-home\n 100G 40G 60G 40% /home".toList
        0)).2
      = .panic "index out of range".toList := by
  decide

/-! ## Lemmas on `strconv` -/

theorem maxUint64_eq : strconv.maxUint64 = 18446744073709551615 := by decide

theorem cutoff10_eq : strconv.cutoff10 = 1844674407370955162 := by decide

theorem digit_le_nine (c : Char) (h : strconv.isDigit c = true) : c.toNat - 48 ≤ 9 := by
  simp only [strconv.isDigit, Bool.and_eq_true, decide_eq_true_eq] at h
  omega

theorem le_decimalValue (ds : Str) (n : Nat) : n ≤ decimalValue ds n := by
  induction ds generalizing n with
  | nil => exact Nat.le_refl n
  | cons c cs ih =>
    have := ih (n * 10 + (c.toNat - 48))
    simp only [decimalValue]
    omega

theorem decimalValue_append (a b : Str) (n : Nat) :
    decimalValue (a ++ b) n = decimalValue b (decimalValue a n) := by
  induction a generalizing n with
  | nil => rfl
  | cons c cs ih => exact ih (n * 10 + (c.toNat - 48))

theorem parseUintLoop_exact (ds : Str) (n : Nat) (hds : ∀ c ∈ ds, strconv.isDigit c = true)
    (hfit : decimalValue ds n ≤ strconv.maxUint64) :
    strconv.parseUintLoop ds n = (decimalValue ds n, none) := by
  induction ds generalizing n with
  | nil => rfl
  | cons c cs ih =>
    have hc := hds c (List.mem_cons_self _ _)
    have hd := digit_le_nine c hc
    simp only [decimalValue] at hfit ⊢
    have hstep := le_decimalValue cs (n * 10 + (c.toNat - 48))
    rw [maxUint64_eq] at hfit
    have hcut : ¬ n ≥ strconv.cutoff10 := by rw [cutoff10_eq]; omega
    have hn10 : (n * 10) % 2 ^ 64 = n * 10 := Nat.mod_eq_of_lt (by omega)
    have hn1 : (n * 10 + (c.toNat - 48)) % 2 ^ 64 = n * 10 + (c.toNat - 48) :=
      Nat.mod_eq_of_lt (by omega)
    have hok : ¬ (n * 10 + (c.toNat - 48) < n * 10 ∨
        n * 10 + (c.toNat - 48) > strconv.maxUint64) := by
      rw [maxUint64_eq]; omega
    simp only [strconv.parseUintLoop, hc, if_true, hcut, if_false, hn10, hn1, hok]
    exact ih _ (fun x hx => hds x (List.mem_cons_of_mem _ hx)) (by rw [maxUint64_eq]; exact hfit)

theorem parseUintLoop_overflow (ds rest : Str) (n : Nat)
    (hds : ∀ c ∈ ds, strconv.isDigit c = true) (hn : n ≤ strconv.maxUint64)
    (hbig : strconv.maxUint64 < decimalValue ds n) :
    strconv.parseUintLoop (ds ++ rest) n = (strconv.maxUint64, some .errRange) := by
  induction ds generalizing n with
  | nil =>
    simp only [decimalValue] at hbig
    omega
  | cons c cs ih =>
    have hc := hds c (List.mem_cons_self _ _)
    have hd := digit_le_nine c hc
    simp only [decimalValue] at hbig
    simp only [List.cons_append, strconv.parseUintLoop, hc, if_true]
    by_cases hcut : n ≥ strconv.cutoff10
    · simp only [hcut, if_true]
    · simp only [hcut, if_false]
      rw [cutoff10_eq] at hcut
      have hn10 : (n * 10) % 2 ^ 64 = n * 10 := Nat.mod_eq_of_lt (by omega)
      rw [hn10]
      by_cases hwrap : n * 10 + (c.toNat - 48) < 2 ^ 64
      · have hn1 : (n * 10 + (c.toNat - 48)) % 2 ^ 64 = n * 10 + (c.toNat - 48) :=
          Nat.mod_eq_of_lt hwrap
        have hok : ¬ (n * 10 + (c.toNat - 48) < n * 10 ∨
            n * 10 + (c.toNat - 48) > strconv.maxUint64) := by
          rw [maxUint64_eq]; omega
        simp only [hn1, hok, if_false]
        exact ih _ (fun x hx => hds x (List.mem_cons_of_mem _ hx))
          (by rw [maxUint64_eq]; omega) hbig
      · have hn1 : (n * 10 + (c.toNat - 48)) % 2 ^ 64 < n * 10 := by omega
        simp only [hn1, true_or, if_true]

theorem parseUintLoop_invalid (ds rest : Str) (c : Char) (n : Nat)
    (hds : ∀ x ∈ ds, strconv.isDigit x = true) (hfit : decimalValue ds n ≤ strconv.maxUint64)
    (hc : strconv.isDigit c = false) :
    strconv.parseUintLoop (ds ++ c :: rest) n = (0, some .errSyn) := by
  rw [show ds ++ c :: rest = ds ++ ([c] ++ rest) from rfl]
  induction ds generalizing n with
  | nil => simp only [List.nil_append, List.singleton_append, strconv.parseUintLoop, hc,
      Bool.false_eq_true, if_false]
  | cons d more ih =>
    have hdig := hds d (List.mem_cons_self _ _)
    have hd := digit_le_nine d hdig
    simp only [decimalValue] at hfit
    have hstep := le_decimalValue more (n * 10 + (d.toNat - 48))
    rw [maxUint64_eq] at hfit
    have hcut : ¬ n ≥ strconv.cutoff10 := by rw [cutoff10_eq]; omega
    have hn10 : (n * 10) % 2 ^ 64 = n * 10 := Nat.mod_eq_of_lt (by omega)
    have hn1 : (n * 10 + (d.toNat - 48)) % 2 ^ 64 = n * 10 + (d.toNat - 48) :=
      Nat.mod_eq_of_lt (by omega)
    have hok : ¬ (n * 10 + (d.toNat - 48) < n * 10 ∨
        n * 10 + (d.toNat - 48) > strconv.maxUint64) := by
      rw [maxUint64_eq]; omega
    simp only [List.cons_append, strconv.parseUintLoop, hdig, if_true, hcut, if_false, hn10,
      hn1, hok]
    exact ih _ (fun x hx => hds x (List.mem_cons_of_mem _ hx)) (by rw [maxUint64_eq]; exact hfit)

theorem split_at_nondigit (body : Str) (h : body.all strconv.isDigit = false) :
    ∃ c rest, body = body.takeWhile strconv.isDigit ++ c :: rest ∧ strconv.isDigit c = false := by
  induction body with
  | nil => simp at h
  | cons d more ih =>
    by_cases hd : strconv.isDigit d = true
    · have hmore : more.all strconv.isDigit = false := by
        simpa [List.all_cons, hd] using h
      obtain ⟨c, rest, heq, hc⟩ := ih hmore
      refine ⟨c, rest, ?_, hc⟩
      rw [List.takeWhile_cons_of_pos hd, List.cons_append, ← heq]
    · refine ⟨d, more, ?_, by simpa using hd⟩
      rw [List.takeWhile_cons_of_neg hd, List.nil_append]

theorem parseUint_exact (body : Str) (hne : body ≠ [])
    (hds : ∀ c ∈ body, strconv.isDigit c = true)
    (hfit : decimalValue body 0 ≤ strconv.maxUint64) :
    strconv.ParseUint body = (decimalValue body 0, none) := by
  cases body with
  | nil => exact absurd rfl hne
  | cons c cs =>
    simp only [strconv.ParseUint, List.isEmpty_cons, Bool.false_eq_true, if_false]
    exact parseUintLoop_exact _ 0 hds hfit

theorem parseUint_overflow (body : Str)
    (hbig : strconv.maxUint64 < decimalValue (body.takeWhile strconv.isDigit) 0) :
    strconv.ParseUint body = (strconv.maxUint64, some .errRange) := by
  cases body with
  | nil =>
    simp only [List.takeWhile_nil, decimalValue] at hbig
    omega
  | cons c cs =>
    simp only [strconv.ParseUint, List.isEmpty_cons, Bool.false_eq_true, if_false]
    rw [← List.takeWhile_append_dropWhile strconv.isDigit (c :: cs)]
    exact parseUintLoop_overflow _ _ 0 (fun x hx => List.mem_takeWhile_imp hx)
      (Nat.zero_le _) hbig

theorem parseUint_invalid (body : Str) (hbad : body.all strconv.isDigit = false)
    (hfit : decimalValue (body.takeWhile strconv.isDigit) 0 ≤ strconv.maxUint64) :
    strconv.ParseUint body = (0, some .errSyn) := by
  obtain ⟨c, rest, heq, hc⟩ := split_at_nondigit body hbad
  cases body with
  | nil => rfl
  | cons b bs =>
    simp only [strconv.ParseUint, List.isEmpty_cons, Bool.false_eq_true, if_false]
    rw [heq]
    exact parseUintLoop_invalid _ rest c 0 (fun x hx => List.mem_takeWhile_imp hx) hfit hc

theorem parseInt_of_errSyn (c : Char) (cs : Str) (un : Nat)
    (h : strconv.ParseUint (unsignedPart (c :: cs)) = (un, some .errSyn)) :
    strconv.ParseInt (c :: cs) = (0, some .errSyn) := by
  simp only [unsignedPart] at h
  simp only [strconv.ParseInt, h]

theorem parseInt_of_value (c : Char) (cs : Str) (un : Nat) (e : Option strconv.NumError)
    (h : strconv.ParseUint (unsignedPart (c :: cs)) = (un, e)) (he : e ≠ some .errSyn) :
    strconv.ParseInt (c :: cs)
      = if !(c == '-') && un ≥ 2 ^ 63 then (((2 ^ 63 : Nat) : Int) - 1, some .errRange)
        else if (c == '-') && un > 2 ^ 63 then (-((2 ^ 63 : Nat) : Int), some .errRange)
        else (if c == '-' then -(un : Int) else (un : Int), none) := by
  simp only [unsignedPart] at h
  simp only [strconv.ParseInt, h]

theorem digitChar_isDigit (d : Nat) (hd : d < 10) :
    strconv.isDigit (Nat.digitChar d) = true ∧ (Nat.digitChar d).toNat - 48 = d := by
  interval_cases d <;> decide

theorem toDigitsCore_decimal (fuel : Nat) :
    ∀ (m : Nat) (acc : Str), m < fuel →
      ∃ ds, Nat.toDigitsCore 10 fuel m acc = ds ++ acc ∧ ds ≠ [] ∧
        (∀ c ∈ ds, strconv.isDigit c = true) ∧ decimalValue ds 0 = m := by
  induction fuel with
  | zero => intro m acc h; omega
  | succ fuel ih =>
    intro m acc hm
    obtain ⟨hdig, hval⟩ := digitChar_isDigit (m % 10) (Nat.mod_lt _ (by decide))
    by_cases hq : m / 10 = 0
    · refine ⟨[Nat.digitChar (m % 10)], ?_, by simp, ?_, ?_⟩
      · simp only [Nat.toDigitsCore, hq, if_true, List.singleton_append]
      · intro c hc
        rw [List.mem_singleton.mp hc]
        exact hdig
      · simp only [decimalValue, hval]
        omega
    · obtain ⟨ds, heq, -, hds, hv⟩ := ih (m / 10) (Nat.digitChar (m % 10) :: acc) (by omega)
      refine ⟨ds ++ [Nat.digitChar (m % 10)], ?_, by simp, ?_, ?_⟩
      · simp only [Nat.toDigitsCore, hq, if_false, heq, List.append_assoc, List.singleton_append]
      · intro c hc
        rcases List.mem_append.mp hc with h | h
        · exact hds c h
        · rw [List.mem_singleton.mp h]
          exact hdig
      · rw [decimalValue_append, hv]
        simp only [decimalValue, hval]
        omega

theorem toDigits_decimal (m : Nat) :
    Nat.toDigits 10 m ≠ [] ∧ (∀ c ∈ Nat.toDigits 10 m, strconv.isDigit c = true) ∧
      decimalValue (Nat.toDigits 10 m) 0 = m := by
  obtain ⟨ds, heq, hne, hds, hv⟩ := toDigitsCore_decimal (m + 1) m [] (Nat.lt_succ_self m)
  have h : Nat.toDigits 10 m = ds := by
    rw [Nat.toDigits, heq, List.append_nil]
  rw [h]
  exact ⟨hne, hds, hv⟩

theorem unsignedPart_of_digit (c : Char) (cs : Str) (hc : strconv.isDigit c = true) :
    unsignedPart (c :: cs) = c :: cs ∧ (c == '-') = false := by
  have hplus : (c == '+') = false := by
    rw [beq_eq_false_iff_ne]
    intro h
    rw [h] at hc
    exact absurd hc (by decide)
  have hminus : (c == '-') = false := by
    rw [beq_eq_false_iff_ne]
    intro h
    rw [h] at hc
    exact absurd hc (by decide)
  simp only [unsignedPart, hplus, hminus, Bool.or_self, Bool.false_eq_true, if_false, and_self]

theorem atoi_digits (ds : Str) (hne : ds ≠ []) (hds : ∀ c ∈ ds, strconv.isDigit c = true) :
    (strconv.Atoi ds).1
      = if 2 ^ 63 ≤ decimalValue ds 0 then (2 ^ 63 - 1 : Int) else (decimalValue ds 0 : Int) := by
  cases ds with
  | nil => exact absurd rfl hne
  | cons c cs =>
    obtain ⟨hbody, hneg⟩ := unsignedPart_of_digit c cs (hds c (List.mem_cons_self _ _))
    by_cases hfit : decimalValue (c :: cs) 0 ≤ strconv.maxUint64
    · have hparse : strconv.ParseUint (unsignedPart (c :: cs))
          = (decimalValue (c :: cs) 0, none) := by
        rw [hbody]
        exact parseUint_exact (c :: cs) hne hds hfit
      rw [strconv.Atoi, parseInt_of_value c cs _ none hparse (by simp), hneg]
      by_cases hbig : 9223372036854775808 ≤ decimalValue (c :: cs) 0
      · simp [hbig]
      · simp [hbig]
    · have htake : (c :: cs).takeWhile strconv.isDigit = c :: cs :=
        List.takeWhile_eq_self_iff.mpr hds
      have hparse : strconv.ParseUint (unsignedPart (c :: cs))
          = (strconv.maxUint64, some .errRange) := by
        rw [hbody]
        exact parseUint_overflow (c :: cs) (by rw [htake]; omega)
      rw [strconv.Atoi, parseInt_of_value c cs _ (some .errRange) hparse (by simp), hneg]
      rw [maxUint64_eq] at hfit
      have hbig : 9223372036854775808 ≤ decimalValue (c :: cs) 0 := by omega
      simp [hbig, maxUint64_eq]

theorem atoi_minus_digits (ds : Str) (hne : ds ≠ [])
    (hds : ∀ c ∈ ds, strconv.isDigit c = true) :
    (strconv.Atoi ('-' :: ds)).1
      = if 2 ^ 63 < decimalValue ds 0 then (-2 ^ 63 : Int) else -(decimalValue ds 0 : Int) := by
  have hbody : unsignedPart ('-' :: ds) = ds := rfl
  by_cases hfit : decimalValue ds 0 ≤ strconv.maxUint64
  · have hparse : strconv.ParseUint (unsignedPart ('-' :: ds)) = (decimalValue ds 0, none) := by
      rw [hbody]
      exact parseUint_exact ds hne hds hfit
    rw [strconv.Atoi, parseInt_of_value '-' ds _ none hparse (by simp)]
    by_cases hbig : 9223372036854775808 < decimalValue ds 0
    · simp [hbig]
    · simp [hbig]
  · have htake : ds.takeWhile strconv.isDigit = ds := List.takeWhile_eq_self_iff.mpr hds
    have hparse : strconv.ParseUint (unsignedPart ('-' :: ds))
        = (strconv.maxUint64, some .errRange) := by
      rw [hbody]
      exact parseUint_overflow ds (by rw [htake]; omega)
    rw [strconv.Atoi, parseInt_of_value '-' ds _ (some .errRange) hparse (by simp)]
    rw [maxUint64_eq] at hfit
    have hbig : 9223372036854775808 < decimalValue ds 0 := by omega
    simp [hbig, maxUint64_eq]

/-- Reading back a printed integer: `Atoi (Itoa n)` is `n` brought into the range of `int`. -/
theorem atoi_itoa (n : Int) :
    (strconv.Atoi (strconv.Itoa n)).1
      = if 2 ^ 63 - 1 < n then 2 ^ 63 - 1 else if n < -2 ^ 63 then -2 ^ 63 else n := by
  by_cases hn : n < 0
  · obtain ⟨hne, hds, hv⟩ := toDigits_decimal n.natAbs
    simp only [strconv.Itoa, hn, if_true]
    rw [atoi_minus_digits _ hne hds, hv]
    have h1 : ¬ (2 ^ 63 - 1 < n) := by omega
    simp only [h1, if_false]
    by_cases hbig : 2 ^ 63 < n.natAbs
    · have h2 : n < -2 ^ 63 := by omega
      simp only [hbig, h2, if_true]
    · have h2 : ¬ n < -2 ^ 63 := by omega
      simp only [hbig, h2, if_false]
      omega
  · obtain ⟨hne, hds, hv⟩ := toDigits_decimal n.toNat
    simp only [strconv.Itoa, hn, if_false]
    rw [atoi_digits _ hne hds, hv]
    by_cases hbig : 2 ^ 63 ≤ n.toNat
    · have h1 : 2 ^ 63 - 1 < n := by omega
      simp only [hbig, h1, if_true]
    · have h1 : ¬ (2 ^ 63 - 1 < n) := by omega
      have h2 : ¬ n < -2 ^ 63 := by omega
      simp only [hbig, h1, h2, if_false]
      omega

theorem atoi_invalid (r : Str) (hbad : isIntegerText r = false)
    (hfit : decimalValue (leadingDigits r) 0 < 2 ^ 64) : (strconv.Atoi r).1 = 0 := by
  cases r with
  | nil => rfl
  | cons c cs =>
    have hfit2 : decimalValue ((unsignedPart (c :: cs)).takeWhile strconv.isDigit) 0
        ≤ strconv.maxUint64 := by
      rw [maxUint64_eq]
      simp only [leadingDigits] at hfit
      omega
    have hparse : ∃ un, strconv.ParseUint (unsignedPart (c :: cs)) = (un, some .errSyn) := by
      by_cases hempty : unsignedPart (c :: cs) = []
      · rw [hempty]
        exact ⟨0, rfl⟩
      · have hall : (unsignedPart (c :: cs)).all strconv.isDigit = false := by
          simp only [isIntegerText, Bool.and_eq_false_iff, Bool.not_eq_false_eq_eq_true,
            List.isEmpty_iff] at hbad
          rcases hbad with h | h
          · exact absurd h hempty
          · exact h
        exact ⟨0, parseUint_invalid _ hall hfit2⟩
    obtain ⟨un, hun⟩ := hparse
    rw [strconv.Atoi, parseInt_of_errSyn c cs un hun]

theorem atoi_saturates (r : Str) (hbig : 2 ^ 64 ≤ decimalValue (leadingDigits r) 0) :
    (strconv.Atoi r).1 = if r.head? = some '-' then (-2 ^ 63 : Int) else 2 ^ 63 - 1 := by
  cases r with
  | nil =>
    simp only [leadingDigits, unsignedPart, List.takeWhile_nil, decimalValue] at hbig
    omega
  | cons c cs =>
    have hparse := parseUint_overflow (unsignedPart (c :: cs)) (by
      rw [maxUint64_eq]
      simp only [leadingDigits] at hbig
      omega)
    rw [strconv.Atoi, parseInt_of_value c cs _ (some .errRange) hparse (by simp)]
    by_cases hc : c = '-'
    · simp [hc, maxUint64_eq]
    · simp [hc, maxUint64_eq]

theorem atoi_nonneg (r : Str) (hsign : r.head? ≠ some '-') : 0 ≤ (strconv.Atoi r).1 := by
  cases r with
  | nil => decide
  | cons c cs =>
    have hc : (c == '-') = false := by
      rw [beq_eq_false_iff_ne]
      intro h
      apply hsign
      rw [h, List.head?_cons]
    rcases hp : strconv.ParseUint (unsignedPart (c :: cs)) with ⟨un, e⟩
    by_cases he : e = some .errSyn
    · rw [he] at hp
      rw [strconv.Atoi, parseInt_of_errSyn c cs un hp]
    · rw [strconv.Atoi, parseInt_of_value c cs un e hp he, hc]
      by_cases hbig : 9223372036854775808 ≤ un
      · simp [hbig]
      · simp [hbig]

theorem atoi_integerText (r : Str) (hvalid : isIntegerText r = true) :
    (strconv.Atoi r).1
      = if 2 ^ 63 - 1 < integerValue r then 2 ^ 63 - 1
        else if integerValue r < -2 ^ 63 then -2 ^ 63 else integerValue r := by
  simp only [isIntegerText, Bool.and_eq_true, Bool.not_eq_true', List.isEmpty_eq_false,
    List.all_eq_true] at hvalid
  obtain ⟨hne, hds⟩ := hvalid
  cases r with
  | nil => exact absurd rfl hne
  | cons c cs =>
    by_cases hc : c = '-'
    · subst hc
      have hbody : unsignedPart ('-' :: cs) = cs := rfl
      rw [hbody] at hne hds
      have hval : integerValue ('-' :: cs) = -(decimalValue cs 0 : Int) := rfl
      rw [atoi_minus_digits cs hne hds, hval]
      by_cases hbig : 2 ^ 63 < decimalValue cs 0
      · rw [if_pos hbig, if_neg (by omega), if_pos (by omega)]
      · rw [if_neg hbig, if_neg (by omega), if_neg (by omega)]
    · have hneg : (c == '-') = false := by
        rw [beq_eq_false_iff_ne]
        exact hc
      have hhead : ¬ ((c :: cs).head? = some '-') := by
        rw [List.head?_cons]
        intro h
        exact hc (Option.some.inj h)
      have hval : integerValue (c :: cs) = (decimalValue (unsignedPart (c :: cs)) 0 : Int) := by
        simp only [integerValue, hhead, if_false]
      rw [hval]
      by_cases hfit : decimalValue (unsignedPart (c :: cs)) 0 ≤ strconv.maxUint64
      · have hparse := parseUint_exact _ hne hds hfit
        rw [strconv.Atoi, parseInt_of_value c cs _ none hparse (by simp), hneg]
        by_cases hbig : 9223372036854775808 ≤ decimalValue (unsignedPart (c :: cs)) 0
        · have h1 : (2 : Int) ^ 63 - 1 < (decimalValue (unsignedPart (c :: cs)) 0 : Int) := by
            omega
          rw [if_pos h1]
          simp [hbig]
        · have h1 : ¬ (2 : Int) ^ 63 - 1 < (decimalValue (unsignedPart (c :: cs)) 0 : Int) := by
            omega
          have h2 : ¬ (decimalValue (unsignedPart (c :: cs)) 0 : Int) < -2 ^ 63 := by omega
          rw [if_neg h1, if_neg h2]
          simp [hbig]
      · have htake : (unsignedPart (c :: cs)).takeWhile strconv.isDigit
            = unsignedPart (c :: cs) := List.takeWhile_eq_self_iff.mpr hds
        have hparse := parseUint_overflow (unsignedPart (c :: cs)) (by rw [htake]; omega)
        rw [strconv.Atoi, parseInt_of_value c cs _ (some .errRange) hparse (by simp), hneg]
        rw [maxUint64_eq] at hfit
        have h1 : (2 : Int) ^ 63 - 1 < (decimalValue (unsignedPart (c :: cs)) 0 : Int) := by
          omega
        rw [if_pos h1]
        simp [maxUint64_eq]

/-- The decimal text of an integer is a valid integer text and denotes that integer. -/
theorem itoa_integerText (n : Int) :
    isIntegerText (strconv.Itoa n) = true ∧ integerValue (strconv.Itoa n) = n := by
  by_cases hn : n < 0
  · obtain ⟨hne, hds, hv⟩ := toDigits_decimal n.natAbs
    have hitoa : strconv.Itoa n = '-' :: Nat.toDigits 10 n.natAbs := by
      simp only [strconv.Itoa, hn, if_true]
    have hbody : unsignedPart ('-' :: Nat.toDigits 10 n.natAbs) = Nat.toDigits 10 n.natAbs := rfl
    have hval : integerValue ('-' :: Nat.toDigits 10 n.natAbs)
        = -(decimalValue (Nat.toDigits 10 n.natAbs) 0 : Int) := rfl
    rw [hitoa]
    refine ⟨?_, ?_⟩
    · simp only [isIntegerText, hbody, Bool.and_eq_true, Bool.not_eq_true',
        List.isEmpty_eq_false, List.all_eq_true]
      exact ⟨hne, hds⟩
    · rw [hval, hv]
      omega
  · obtain ⟨hne, hds, hv⟩ := toDigits_decimal n.toNat
    have hitoa : strconv.Itoa n = Nat.toDigits 10 n.toNat := by
      simp only [strconv.Itoa, hn, if_false]
    rw [hitoa]
    cases hd : Nat.toDigits 10 n.toNat with
    | nil => exact absurd hd hne
    | cons c cs =>
      rw [hd] at hne hds hv
      obtain ⟨hbody, hneg⟩ := unsignedPart_of_digit c cs (hds c (List.mem_cons_self _ _))
      have hhead : ¬ ((c :: cs).head? = some '-') := by
        rw [List.head?_cons]
        intro h
        rw [Option.some.inj h] at hneg
        exact absurd hneg (by decide)
      refine ⟨?_, ?_⟩
      · simp only [isIntegerText, hbody, Bool.and_eq_true, Bool.not_eq_true',
          List.isEmpty_eq_false, List.all_eq_true]
        exact ⟨hne, hds⟩
      · simp only [integerValue, hhead, if_false, hbody, hv]
        omega

/-! ## Claims on `runNodetoolCompactionstats` -/

theorem pendingLoop_no_match (ls : List Str) (n : Int)
    (h : ∀ l ∈ ls, strings.HasPrefix l "pending tasks:".toList = false) :
    pendingLoop ls n = n := by
  induction ls with
  | nil => rfl
  | cons line rest ih =>
    simp only [pendingLoop, h line (List.mem_cons_self _ _), Bool.false_eq_true, if_false]
    exact ih fun l hl => h l (List.mem_cons_of_mem _ hl)

theorem pendingLoop_first_match (l1 l2 : List Str) (line : Str) (n : Int)
    (hbefore : ∀ l ∈ l1, strings.HasPrefix l "pending tasks:".toList = false)
    (hline : strings.HasPrefix line "pending tasks:".toList = true) :
    pendingLoop (l1 ++ line :: l2) n
      = (strconv.Atoi (strings.TrimSpace (strings.TrimPrefix line "pending tasks:".toList))).1 := by
  induction l1 with
  | nil => simp only [List.nil_append, pendingLoop, hline, if_true]
  | cons first rest ih =>
    simp only [List.cons_append, pendingLoop, hbefore first (List.mem_cons_self _ _),
      Bool.false_eq_true, if_false]
    exact ih fun l hl => hbefore l (List.mem_cons_of_mem _ hl)

theorem first_match_or_none (ls : List Str) :
    (∀ l ∈ ls, strings.HasPrefix l "pending tasks:".toList = false) ∨
    ∃ l1 line l2, ls = l1 ++ line :: l2 ∧
      (∀ l ∈ l1, strings.HasPrefix l "pending tasks:".toList = false) ∧
      strings.HasPrefix line "pending tasks:".toList = true := by
  induction ls with
  | nil => exact Or.inl fun l hl => absurd hl (List.not_mem_nil l)
  | cons first rest ih =>
    by_cases hfirst : strings.HasPrefix first "pending tasks:".toList = true
    · exact Or.inr ⟨[], first, rest, rfl, fun l hl => absurd hl (List.not_mem_nil l), hfirst⟩
    · have hfalse : strings.HasPrefix first "pending tasks:".toList = false := by
        simpa using hfirst
      rcases ih with hnone | ⟨l1, line, l2, heq, hbefore, hline⟩
      · left
        intro l hl
        rcases List.mem_cons.mp hl with h | h
        · rw [h]; exact hfalse
        · exact hnone l h
      · right
        refine ⟨first :: l1, line, l2, by rw [heq, List.cons_append], ?_, hline⟩
        intro l hl
        rcases List.mem_cons.mp hl with h | h
        · rw [h]; exact hfalse
        · exact hbefore l h

theorem compactionstats_ok {F : Type} (w : World F) (nodetoolPath output : Str)
    (hrun : w.combinedOutput ⟨nodetoolPath ++ "nodetool compactionstats".toList, []⟩
      = .ok output) :
    runNodetoolCompactionstats w nodetoolPath
      = ([.command ⟨nodetoolPath ++ "nodetool compactionstats".toList, []⟩],
         .ok (pendingLoop (strings.Split output '\n') 0)) := by
  unfold runNodetoolCompactionstats
  simp only [hrun]

/-- C3, refuted as stated.  The remainder `99999999999999999999` is the decimal text of that
integer, yet the count returned is 9223372036854775807; and the remainder
`99999999999999999999x` is not a valid integer, yet the count returned is again
9223372036854775807 and not 0. -/
theorem pending_count_counterexample :
    strconv.Itoa 99999999999999999999 = "99999999999999999999".toList ∧
    (runNodetoolCompactionstats
        (sampleWorld [] "pending tasks: 99999999999999999999".toList [] 0)
        "/Downloads/dse/bin/".toList).2 = .ok 9223372036854775807 ∧
    isIntegerText "99999999999999999999x".toList = false ∧
    (runNodetoolCompactionstats
        (sampleWorld [] "pending tasks: 99999999999999999999x".toList [] 0)
        "/Downloads/dse/bin/".toList).2 = .ok 9223372036854775807 := by
  decide

/-- C3, amended: when the compaction tool succeeds, no error is returned and the count is as
follows.  If no line starts with `pending tasks:` it is 0.  Otherwise let `r` be the first such
line without the prefix, trimmed of surrounding white space.  If `r` is a valid integer text
(an optional sign followed by one or more decimal digits, such as `7`, `+7`, `007`, `-007`, and
in particular the decimal text of any integer) denoting the integer `n`, the count is `n` when
`-2^63 ≤ n ≤ 2^63 - 1`, it is `2^63 - 1` when `n` is larger and `-2^63` when `n` is smaller.
If `r` is not a valid integer text and the digits it starts with (after an optional sign)
denote a number below `2^64`, the count is 0.  If those digits denote `2^64` or more, the
count is `-2^63` when `r` starts with a minus sign and `2^63 - 1` otherwise, whatever follows
the digits. -/
theorem pending_count_of_first_line {F : Type} (w : World F) (nodetoolPath output : Str)
    (hrun : w.combinedOutput ⟨nodetoolPath ++ "nodetool compactionstats".toList, []⟩
      = .ok output) :
    ((∀ line ∈ strings.Split output '\n',
        strings.HasPrefix line "pending tasks:".toList = false) →
      (runNodetoolCompactionstats w nodetoolPath).2 = .ok 0) ∧
    (∀ (l1 l2 : List Str) (line r : Str),
      strings.Split output '\n' = l1 ++ line :: l2 →
      (∀ l ∈ l1, strings.HasPrefix l "pending tasks:".toList = false) →
      strings.HasPrefix line "pending tasks:".toList = true →
      r = strings.TrimSpace (strings.TrimPrefix line "pending tasks:".toList) →
      (∀ n : Int, isIntegerText r = true → integerValue r = n →
        (-2 ^ 63 ≤ n → n ≤ 2 ^ 63 - 1 →
          (runNodetoolCompactionstats w nodetoolPath).2 = .ok n) ∧
        (2 ^ 63 - 1 < n →
          (runNodetoolCompactionstats w nodetoolPath).2 = .ok (2 ^ 63 - 1)) ∧
        (n < -2 ^ 63 →
          (runNodetoolCompactionstats w nodetoolPath).2 = .ok (-2 ^ 63))) ∧
      (∀ n : Int, r = strconv.Itoa n →
        isIntegerText r = true ∧ integerValue r = n) ∧
      (∀ n : Int, r = strconv.Itoa n → -2 ^ 63 ≤ n → n ≤ 2 ^ 63 - 1 →
        (runNodetoolCompactionstats w nodetoolPath).2 = .ok n) ∧
      (∀ n : Int, r = strconv.Itoa n → 2 ^ 63 - 1 < n →
        (runNodetoolCompactionstats w nodetoolPath).2 = .ok (2 ^ 63 - 1)) ∧
      (∀ n : Int, r = strconv.Itoa n → n < -2 ^ 63 →
        (runNodetoolCompactionstats w nodetoolPath).2 = .ok (-2 ^ 63)) ∧
      (isIntegerText r = false → decimalValue (leadingDigits r) 0 < 2 ^ 64 →
        (runNodetoolCompactionstats w nodetoolPath).2 = .ok 0) ∧
      (2 ^ 64 ≤ decimalValue (leadingDigits r) 0 →
        (runNodetoolCompactionstats w nodetoolPath).2
          = .ok (if r.head? = some '-' then -2 ^ 63 else 2 ^ 63 - 1))) := by
  rw [compactionstats_ok w nodetoolPath output hrun]
  refine ⟨fun hnone => by rw [pendingLoop_no_match _ 0 hnone], ?_⟩
  intro l1 l2 line r hsplit hbefore hline hr
  rw [hsplit, pendingLoop_first_match l1 l2 line 0 hbefore hline, ← hr]
  refine ⟨?_, ?_, ?_, ?_, ?_, ?_, ?_⟩
  · intro n hvalid hval
    rw [atoi_integerText r hvalid, hval]
    refine ⟨?_, ?_, ?_⟩
    · intro hlo hhi
      rw [if_neg (by omega), if_neg (by omega)]
    · intro hbig
      rw [if_pos hbig]
    · intro hsmall
      rw [if_neg (by omega), if_pos hsmall]
  · intro n hn
    rw [hn]
    exact itoa_integerText n
  · intro n hn hlo hhi
    rw [hn, atoi_itoa, if_neg (by omega), if_neg (by omega)]
  · intro n hn hbig
    rw [hn, atoi_itoa, if_pos hbig]
  · intro n hn hsmall
    rw [hn, atoi_itoa, if_neg (by omega), if_pos hsmall]
  · intro hbad hfit
    rw [atoi_invalid r hbad hfit]
  · intro hbig
    rw [atoi_saturates r hbig]

/-- Witness for C3 amended: `pending tasks: 7` gives 7, `pending tasks: abc` gives 0, an
output without such a line gives 0; the valid integer texts `+7`, `007` and `-007` give 7, 7
and -7; and `9223372036854775808`, one above the largest `int`, gives 9223372036854775807.
The last part evaluates the function on seven more remainders. -/
theorem pending_count_of_first_line_witness :
    (runNodetoolCompactionstats (sampleWorld [] "pending tasks: 7".toList [] 0)
        "/Downloads/dse/bin/".toList).2 = .ok 7 ∧
    (runNodetoolCompactionstats (sampleWorld [] "pending tasks: abc".toList [] 0)
        "/Downloads/dse/bin/".toList).2 = .ok 0 ∧
    (runNodetoolCompactionstats (sampleWorld [] "no compactions".toList [] 0)
        "/Downloads/dse/bin/".toList).2 = .ok 0 ∧
    (runNodetoolCompactionstats (sampleWorld [] "pending tasks: +7".toList [] 0)
        "/Downloads/dse/bin/".toList).2 = .ok 7 ∧
    (runNodetoolCompactionstats (sampleWorld [] "pending tasks: 007".toList [] 0)
        "/Downloads/dse/bin/".toList).2 = .ok 7 ∧
    (runNodetoolCompactionstats (sampleWorld [] "id 1\npending tasks: -007 \n".toList [] 0)
        "/Downloads/dse/bin/".toList).2 = .ok (-7) ∧
    (runNodetoolCompactionstats
        (sampleWorld [] "pending tasks: 9223372036854775808".toList [] 0)
        "/Downloads/dse/bin/".toList).2 = .ok 9223372036854775807 ∧
    ["+7".toList, "007".toList, "-0".toList, "-007 ".toList, "9223372036854775808".toList,
        "-9223372036854775809".toList, "7 tasks".toList].map
      (fun text => runNodetoolCompactionstats
        (sampleWorld [] ("pending tasks: ".toList ++ text) [] 0) "/Downloads/dse/bin/".toList)
      = [.ok 7, .ok 7, .ok 0, .ok (-7), .ok 9223372036854775807, .ok (-9223372036854775808),
          .ok 0].map
        (fun count => ([.command ⟨"/Downloads/dse/bin/nodetool compactionstats".toList, []⟩],
          count)) :=
  ⟨(((pending_count_of_first_line (sampleWorld [] "pending tasks: 7".toList [] 0)
        "/Downloads/dse/bin/".toList "pending tasks: 7".toList rfl).2
      [] [] "pending tasks: 7".toList "7".toList rfl (by decide) (by decide) (by decide)).1
      7 (by decide) (by decide)).1 (by decide) (by decide),
   ((pending_count_of_first_line (sampleWorld [] "pending tasks: abc".toList [] 0)
        "/Downloads/dse/bin/".toList "pending tasks: abc".toList rfl).2
      [] [] "pending tasks: abc".toList "abc".toList rfl (by decide) (by decide)
      (by decide)).2.2.2.2.2.1 (by decide) (by decide),
   (pending_count_of_first_line (sampleWorld [] "no compactions".toList [] 0)
        "/Downloads/dse/bin/".toList "no compactions".toList rfl).1 (by decide),
   (((pending_count_of_first_line (sampleWorld [] "pending tasks: +7".toList [] 0)
        "/Downloads/dse/bin/".toList "pending tasks: +7".toList rfl).2
      [] [] "pending tasks: +7".toList "+7".toList rfl (by decide) (by decide) (by decide)).1
      7 (by decide) (by decide)).1 (by decide) (by decide),
   (((pending_count_of_first_line (sampleWorld [] "pending tasks: 007".toList [] 0)
        "/Downloads/dse/bin/".toList "pending tasks: 007".toList rfl).2
      [] [] "pending tasks: 007".toList "007".toList rfl (by decide) (by decide) (by decide)).1
      7 (by decide) (by decide)).1 (by decide) (by decide),
   (((pending_count_of_first_line (sampleWorld [] "id 1\npending tasks: -007 \n".toList [] 0)
        "/Downloads/dse/bin/".toList "id 1\npending tasks: -007 \n".toList rfl).2
      ["id 1".toList] [[]] "pending tasks: -007 ".toList "-007".toList rfl (by decide)
      (by decide) (by decide)).1 (-7) (by decide) (by decide)).1 (by decide) (by decide),
   (((pending_count_of_first_line
        (sampleWorld [] "pending tasks: 9223372036854775808".toList [] 0)
        "/Downloads/dse/bin/".toList "pending tasks: 9223372036854775808".toList rfl).2
      [] [] "pending tasks: 9223372036854775808".toList "9223372036854775808".toList rfl
      (by decide) (by decide) (by decide)).1
      9223372036854775808 (by decide) (by decide)).2.1 (by decide),
   by decide⟩

/-- C9, refuted as stated: for the output `pending tasks: -5` the count returned is -5, which
is below 0. -/
theorem pending_count_negative_counterexample :
    (runNodetoolCompactionstats (sampleWorld [] "pending tasks: -5".toList [] 0)
        "/Downloads/dse/bin/".toList).2 = .ok (-5) ∧ (-5 : Int) < 0 := by
  decide

/-- C9, amended: when the compaction tool succeeds and the first line starting with
`pending tasks:`, if there is one, does not continue (after white space) with a minus sign,
the count returned is an integer greater than or equal to 0. -/
theorem pending_count_nonneg {F : Type} (w : World F) (nodetoolPath output : Str)
    (hrun : w.combinedOutput ⟨nodetoolPath ++ "nodetool compactionstats".toList, []⟩
      = .ok output)
    (hsign : ∀ (l1 l2 : List Str) (line : Str),
      strings.Split output '\n' = l1 ++ line :: l2 →
      (∀ l ∈ l1, strings.HasPrefix l "pending tasks:".toList = false) →
      strings.HasPrefix line "pending tasks:".toList = true →
      (strings.TrimSpace (strings.TrimPrefix line "pending tasks:".toList)).head?
        ≠ some '-') :
    ∃ n : Int, (runNodetoolCompactionstats w nodetoolPath).2 = .ok n ∧ 0 ≤ n := by
  rw [compactionstats_ok w nodetoolPath output hrun]
  refine ⟨_, rfl, ?_⟩
  rcases first_match_or_none (strings.Split output '\n') with
    hnone | ⟨l1, line, l2, heq, hbefore, hline⟩
  · rw [pendingLoop_no_match _ 0 hnone]
  · rw [heq, pendingLoop_first_match l1 l2 line 0 hbefore hline]
    exact atoi_nonneg _ (hsign l1 l2 line heq hbefore hline)

/-- Witness for C9 amended: the output `pending tasks: 7`. -/
theorem pending_count_nonneg_witness :
    ∃ n : Int, (runNodetoolCompactionstats (sampleWorld [] "pending tasks: 7".toList [] 0)
      "/Downloads/dse/bin/".toList).2 = .ok n ∧ 0 ≤ n :=
  pending_count_nonneg (sampleWorld [] "pending tasks: 7".toList [] 0)
    "/Downloads/dse/bin/".toList "pending tasks: 7".toList rfl (by
      intro l1 l2 line heq _ _
      have hs : strings.Split "pending tasks: 7".toList '\n' = ["pending tasks: 7".toList] := by
        decide
      rw [hs] at heq
      cases l1 with
      | nil =>
        simp only [List.nil_append, List.cons.injEq] at heq
        rw [← heq.1]
        decide
      | cons first more =>
        simp only [List.cons_append, List.cons.injEq] at heq
        exact absurd heq.2 (by simp))

/-! ## The external calls of each step -/

theorem createSession_events {F : Type} (w : World F) :
    (createSession w).1 = [.createSession "127.0.0.1".toList "go".toList] := by
  cases h : w.createSession "127.0.0.1".toList "go".toList <;> simp only [createSession, h]

theorem cpuPercent_events {F : Type} (w : World F) : (cpuPercent w).1 = [.cpuPercent] := by
  cases h : w.cpuPercent <;> simp only [cpuPercent, h]

theorem virtualMemory_events {F : Type} (w : World F) :
    (virtualMemory w).1 = [.virtualMemory] := by
  cases h : w.virtualMemory <;> simp only [virtualMemory, h]

theorem tablehistograms_events {F : Type} (w : World F) (nodetoolPath keyspace table : Str) :
    (runNodetoolTablehistograms w nodetoolPath keyspace table).1
      = [.command ⟨nodetoolPath ++ "nodetool".toList,
          ["tablehistograms".toList, keyspace, table]⟩] := by
  cases h : w.combinedOutput
    ⟨nodetoolPath ++ "nodetool".toList, ["tablehistograms".toList, keyspace, table]⟩ <;>
    simp only [runNodetoolTablehistograms, h]

theorem compactionstats_events {F : Type} (w : World F) (nodetoolPath : Str) :
    (runNodetoolCompactionstats w nodetoolPath).1
      = [.command ⟨nodetoolPath ++ "nodetool compactionstats".toList, []⟩] := by
  cases h : w.combinedOutput ⟨nodetoolPath ++ "nodetool compactionstats".toList, []⟩ <;>
    simp only [runNodetoolCompactionstats, h]

theorem getRowCount_events {F : Type} (w : World F) (keyspace table : Str) :
    (getRowCount w keyspace table).1
      = [.query ("SELECT COUNT(*) FROM ".toList ++ keyspace ++ '.' :: table)] := by
  rcases h : w.queryIter ("SELECT COUNT(*) FROM ".toList ++ keyspace ++ '.' :: table) with
    ⟨scan, close⟩
  cases scan <;> cases close <;> simp only [getRowCount, h]

theorem storage_events {F : Type} (w : World F) :
    (getStorageSpaceUtilization w).1 = [.command ⟨"df".toList, ["-h".toList]⟩] := by
  cases h : w.combinedOutput ⟨"df".toList, ["-h".toList]⟩ <;>
    simp only [getStorageSpaceUtilization, h]

/-- C6, the code at the failing input.  For every tool path the compaction step starts the
executable named by the whole string `nodetoolPath + "nodetool compactionstats"` with an empty
argument list, while the histogram step starts `nodetoolPath + "nodetool"` with its three
arguments.  With the path `/Downloads/dse/bin/` used by `main` the compaction command is not
the executable `/Downloads/dse/bin/nodetool` with the argument list `compactionstats`; on a
host where that executable is installed the histogram step succeeds and the compaction step
fails. -/
theorem compaction_command_single_word :
    (∀ (F : Type) (w : World F) (nodetoolPath keyspace table : Str),
      (runNodetoolCompactionstats w nodetoolPath).1
        = [.command ⟨nodetoolPath ++ "nodetool compactionstats".toList, []⟩] ∧
      (runNodetoolTablehistograms w nodetoolPath keyspace table).1
        = [.command ⟨nodetoolPath ++ "nodetool".toList,
            ["tablehistograms".toList, keyspace, table]⟩]) ∧
    (⟨"/Downloads/dse/bin/".toList ++ "nodetool compactionstats".toList, []⟩ : Cmd)
      ≠ ⟨"/Downloads/dse/bin/".toList ++ "nodetool".toList, ["compactionstats".toList]⟩ ∧
    (runNodetoolTablehistograms installedWorld "/Downloads/dse/bin/".toList "go".toList
      "stats".toList).2 = .ok ([], []) ∧
    (runNodetoolCompactionstats installedWorld "/Downloads/dse/bin/".toList).2
      = .err "failed to run nodetool compactionstats: no such file or directory".toList := by
  refine ⟨?_, by decide, by decide, by decide⟩
  intro F w nodetoolPath keyspace table
  exact ⟨compactionstats_events w nodetoolPath,
    tablehistograms_events w nodetoolPath keyspace table⟩

/-! ## Claims on `main` -/

theorem orFatal_of_ok {α : Type} (step : List Event × Res α) (a : α) (h : step.2 = .ok a)
    (msg : Str) (next : α → Run) :
    orFatal step msg next = (step.1 ++ (next a).1, (next a).2) := by
  obtain ⟨events, r⟩ := step
  simp only at h
  subst h
  rfl

theorem orFatal_of_err {α : Type} (step : List Event × Res α) (e : Str) (h : step.2 = .err e)
    (msg : Str) (next : α → Run) :
    orFatal step msg next = (step.1 ++ [.fatal (msg ++ e)], .fatal) := by
  obtain ⟨events, r⟩ := step
  simp only at h
  subst h
  rfl

/-- C7: when every collection step succeeds, `main` returns and standard output consists of
exactly seven writes, each a label, a colon, one space, the collected value and a newline, in
the order cpu, memory, read_latency, write_latency, pending_compactions, active_connections,
storage_utilization; the two counts are written in decimal.  Nothing in the form depends on
a value being non-empty. -/
theorem main_prints_seven_lines {F : Type} (w : World F) (sample usedPercent : F)
    (more : List F) (readLatency writeLatency storageUtilization : Str)
    (pendingCompactions activeConnections : Int)
    (hsession : (createSession w).2 = .ok ())
    (hcpu : (cpuPercent w).2 = .ok (sample :: more))
    (hmem : (virtualMemory w).2 = .ok usedPercent)
    (hhist : (runNodetoolTablehistograms w "/Downloads/dse/bin/".toList "go".toList
      "stats".toList).2 = .ok (readLatency, writeLatency))
    (hcomp : (runNodetoolCompactionstats w "/Downloads/dse/bin/".toList).2
      = .ok pendingCompactions)
    (hrows : (getRowCount w "dse_perf".toList "user_io".toList).2 = .ok activeConnections)
    (hdf : (getStorageSpaceUtilization w).2 = .ok storageUtilization) :
    (main w).2 = .returned ∧
    stdout (main w).1 =
      [ "cpu".toList ++ ": ".toList ++ w.fmtPercent sample ++ "\n".toList,
        "memory".toList ++ ": ".toList ++ w.fmtPercent usedPercent ++ "\n".toList,
        "read_latency".toList ++ ": ".toList ++ readLatency ++ "\n".toList,
        "write_latency".toList ++ ": ".toList ++ writeLatency ++ "\n".toList,
        "pending_compactions".toList ++ ": ".toList ++ strconv.Itoa pendingCompactions
          ++ "\n".toList,
        "active_connections".toList ++ ": ".toList ++ strconv.Itoa activeConnections
          ++ "\n".toList,
        "storage_utilization".toList ++ ": ".toList ++ storageUtilization ++ "\n".toList ] := by
  have hmain : main w = (collectionSteps ++ report (w.fmtPercent sample)
      (w.fmtPercent usedPercent) readLatency writeLatency pendingCompactions activeConnections
      storageUtilization ++ [.sessionClose], .returned) := by
    unfold main
    simp only [orFatal_of_ok _ _ hsession, orFatal_of_ok _ _ hcpu, orFatal_of_ok _ _ hmem,
      orFatal_of_ok _ _ hhist, orFatal_of_ok _ _ hcomp, orFatal_of_ok _ _ hrows,
      orFatal_of_ok _ _ hdf, createSession_events, cpuPercent_events, virtualMemory_events,
      tablehistograms_events, compactionstats_events, getRowCount_events, storage_events,
      List.getElem?_cons_zero, deferClose]
    rfl
  rw [hmain]
  exact ⟨rfl, rfl⟩

/-- Witness for C7: every step succeeds, the histogram tool prints no histogram line (both
latencies are empty), the compaction tool prints `pending tasks: 7`, the row count is 3 and the
root file system is 40% full. -/
theorem main_prints_seven_lines_witness :
    (main (sampleWorld "no histograms".toList "pending tasks: 7".toList
      "/dev/sda1 100G 40G 60G 40% /".toList 3)).2 = .returned ∧
    stdout (main (sampleWorld "no histograms".toList "pending tasks: 7".toList
      "/dev/sda1 100G 40G 60G 40% /".toList 3)).1 =
      [ "cpu: 12.34%\n".toList, "memory: 56.78%\n".toList, "read_latency: \n".toList,
        "write_latency: \n".toList, "pending_compactions: 7\n".toList,
        "active_connections: 3\n".toList, "storage_utilization: 40%\n".toList ] :=
  main_prints_seven_lines (sampleWorld "no histograms".toList "pending tasks: 7".toList
      "/dev/sda1 100G 40G 60G 40% /".toList 3)
    "12.34%".toList "56.78%".toList [] [] [] "40%".toList 7 3
    rfl rfl rfl (by decide) (by decide) (by decide) (by decide)

/-- C8: a failing external call ends the run there.  For each of the seven collection steps
(connection open, CPU read, memory read, histogram tool, compaction tool, row-count query,
disk-usage tool): if the calls before it succeeded and this call fails with the error `e`, then
`main` makes exactly the external calls up to and including this one, logs the fatal message
of the step, exits through `log.Fatal`, and has written nothing to standard output.  In
particular a failed connection attempt is followed by no other call.  A row-count query fails
when `iter.Scan` returns false and `iter.Close` returns an error. -/
theorem main_fatal_at_failing_step {F : Type} (w : World F) (e : Str) :
    (w.createSession "127.0.0.1".toList "go".toList = some e →
      main w = ([.createSession "127.0.0.1".toList "go".toList,
        .fatal ("Failed to connect to Cassandra:".toList ++ e)], .fatal) ∧
      stdout (main w).1 = []) ∧
    (w.createSession "127.0.0.1".toList "go".toList = none →
      (w.cpuPercent = .error e →
        main w = (collectionSteps.take 2 ++
          [.fatal ("Failed to get CPU usage:".toList ++ e)], .fatal) ∧
        stdout (main w).1 = []) ∧
      (∀ (sample : F) (more : List F), w.cpuPercent = .ok (sample :: more) →
        (w.virtualMemory = .error e →
          main w = (collectionSteps.take 3 ++
            [.fatal ("Failed to get memory usage:".toList ++ e)], .fatal) ∧
          stdout (main w).1 = []) ∧
        (∀ usedPercent : F, w.virtualMemory = .ok usedPercent →
          (w.combinedOutput ⟨"/Downloads/dse/bin/nodetool".toList,
              ["tablehistograms".toList, "go".toList, "stats".toList]⟩ = .error e →
            main w = (collectionSteps.take 4 ++
              [.fatal ("Failed to get tablehistograms:".toList ++
                "failed to run nodetool tablehistograms: ".toList ++ e)], .fatal) ∧
            stdout (main w).1 = []) ∧
          (∀ histograms : Str,
            w.combinedOutput ⟨"/Downloads/dse/bin/nodetool".toList,
              ["tablehistograms".toList, "go".toList, "stats".toList]⟩ = .ok histograms →
            (w.combinedOutput ⟨"/Downloads/dse/bin/nodetool compactionstats".toList, []⟩
                = .error e →
              main w = (collectionSteps.take 5 ++
                [.fatal ("Failed to get compactionstats:".toList ++
                  "failed to run nodetool compactionstats: ".toList ++ e)], .fatal) ∧
              stdout (main w).1 = []) ∧
            (∀ compaction : Str,
              w.combinedOutput ⟨"/Downloads/dse/bin/nodetool compactionstats".toList, []⟩
                = .ok compaction →
              (w.queryIter "SELECT COUNT(*) FROM dse_perf.user_io".toList = (none, some e) →
                main w = (collectionSteps.take 6 ++
                  [.fatal ("Failed to get row count:".toList ++ e)], .fatal) ∧
                stdout (main w).1 = []) ∧
              (∀ (scan : Option Int) (close : Option Str),
                w.queryIter "SELECT COUNT(*) FROM dse_perf.user_io".toList = (scan, close) →
                (scan = none → close = none) →
                w.combinedOutput ⟨"df".toList, ["-h".toList]⟩ = .error e →
                main w = (collectionSteps.take 7 ++
                  [.fatal ("Failed to get storage space utilization:".toList ++
                    "failed to run df command: ".toList ++ e)], .fatal) ∧
                stdout (main w).1 = [])))))) := by
  refine ⟨?_, ?_⟩
  · intro h1
    have s1 : (createSession w).2 = .err e := by simp only [createSession, h1]
    have hmain : main w = ([.createSession "127.0.0.1".toList "go".toList,
        .fatal ("Failed to connect to Cassandra:".toList ++ e)], .fatal) := by
      unfold main
      simp only [orFatal_of_err _ _ s1, createSession_events]
      rfl
    rw [hmain]
    exact ⟨rfl, rfl⟩
  · intro h1
    have s1 : (createSession w).2 = .ok () := by simp only [createSession, h1]
    refine ⟨?_, ?_⟩
    · intro h2
      have s2 : (cpuPercent w).2 = .err e := by simp only [cpuPercent, h2]
      have hmain : main w = (collectionSteps.take 2 ++
          [.fatal ("Failed to get CPU usage:".toList ++ e)], .fatal) := by
        unfold main
        simp only [orFatal_of_ok _ _ s1, orFatal_of_err _ _ s2, createSession_events,
          cpuPercent_events, deferClose]
        rfl
      rw [hmain]
      exact ⟨rfl, rfl⟩
    · intro sample more h2
      have s2 : (cpuPercent w).2 = .ok (sample :: more) := by simp only [cpuPercent, h2]
      refine ⟨?_, ?_⟩
      · intro h3
        have s3 : (virtualMemory w).2 = .err e := by simp only [virtualMemory, h3]
        have hmain : main w = (collectionSteps.take 3 ++
            [.fatal ("Failed to get memory usage:".toList ++ e)], .fatal) := by
          unfold main
          simp only [orFatal_of_ok _ _ s1, orFatal_of_ok _ _ s2, orFatal_of_err _ _ s3,
            createSession_events, cpuPercent_events, virtualMemory_events,
            List.getElem?_cons_zero, deferClose]
          rfl
        rw [hmain]
        exact ⟨rfl, rfl⟩
      · intro usedPercent h3
        have s3 : (virtualMemory w).2 = .ok usedPercent := by simp only [virtualMemory, h3]
        refine ⟨?_, ?_⟩
        · intro h4
          have h4c : w.combinedOutput ⟨"/Downloads/dse/bin/".toList ++ "nodetool".toList,
              ["tablehistograms".toList, "go".toList, "stats".toList]⟩ = .error e := h4
          have s4 : (runNodetoolTablehistograms w "/Downloads/dse/bin/".toList "go".toList
              "stats".toList).2
                = .err ("failed to run nodetool tablehistograms: ".toList ++ e) := by
            simp only [runNodetoolTablehistograms, h4c]
          have hmain : main w = (collectionSteps.take 4 ++
              [.fatal ("Failed to get tablehistograms:".toList ++
                "failed to run nodetool tablehistograms: ".toList ++ e)], .fatal) := by
            unfold main
            simp only [orFatal_of_ok _ _ s1, orFatal_of_ok _ _ s2, orFatal_of_ok _ _ s3,
              orFatal_of_err _ _ s4, createSession_events, cpuPercent_events,
              virtualMemory_events, tablehistograms_events, List.getElem?_cons_zero,
              deferClose]
            rfl
          rw [hmain]
          exact ⟨rfl, rfl⟩
        · intro histograms h4
          have h4c : w.combinedOutput ⟨"/Downloads/dse/bin/".toList ++ "nodetool".toList,
              ["tablehistograms".toList, "go".toList, "stats".toList]⟩ = .ok histograms := h4
          have s4 : (runNodetoolTablehistograms w "/Downloads/dse/bin/".toList "go".toList
              "stats".toList).2 = .ok (histogramLoop (strings.Split histograms '\n') [] []) := by
            simp only [runNodetoolTablehistograms, h4c]
          refine ⟨?_, ?_⟩
          · intro h5
            have h5c : w.combinedOutput
                ⟨"/Downloads/dse/bin/".toList ++ "nodetool compactionstats".toList, []⟩
                  = .error e := h5
            have s5 : (runNodetoolCompactionstats w "/Downloads/dse/bin/".toList).2
                = .err ("failed to run nodetool compactionstats: ".toList ++ e) := by
              simp only [runNodetoolCompactionstats, h5c]
            have hmain : main w = (collectionSteps.take 5 ++
                [.fatal ("Failed to get compactionstats:".toList ++
                  "failed to run nodetool compactionstats: ".toList ++ e)], .fatal) := by
              unfold main
              simp only [orFatal_of_ok _ _ s1, orFatal_of_ok _ _ s2, orFatal_of_ok _ _ s3,
                orFatal_of_ok _ _ s4, orFatal_of_err _ _ s5, createSession_events,
                cpuPercent_events, virtualMemory_events, tablehistograms_events,
                compactionstats_events, List.getElem?_cons_zero, deferClose]
              rfl
            rw [hmain]
            exact ⟨rfl, rfl⟩
          · intro compaction h5
            have h5c : w.combinedOutput
                ⟨"/Downloads/dse/bin/".toList ++ "nodetool compactionstats".toList, []⟩
                  = .ok compaction := h5
            have s5 : (runNodetoolCompactionstats w "/Downloads/dse/bin/".toList).2
                = .ok (pendingLoop (strings.Split compaction '\n') 0) := by
              simp only [runNodetoolCompactionstats, h5c]
            refine ⟨?_, ?_⟩
            · intro h6
              have h6c : w.queryIter ("SELECT COUNT(*) FROM ".toList ++ "dse_perf".toList
                  ++ '.' :: "user_io".toList) = (none, some e) := h6
              have s6 : (getRowCount w "dse_perf".toList "user_io".toList).2 = .err e := by
                simp only [getRowCount, h6c]
              have hmain : main w = (collectionSteps.take 6 ++
                  [.fatal ("Failed to get row count:".toList ++ e)], .fatal) := by
                unfold main
                simp only [orFatal_of_ok _ _ s1, orFatal_of_ok _ _ s2, orFatal_of_ok _ _ s3,
                  orFatal_of_ok _ _ s4, orFatal_of_ok _ _ s5, orFatal_of_err _ _ s6,
                  createSession_events, cpuPercent_events, virtualMemory_events,
                  tablehistograms_events, compactionstats_events, getRowCount_events,
                  List.getElem?_cons_zero, deferClose]
                rfl
              rw [hmain]
              exact ⟨rfl, rfl⟩
            · intro scan close h6 hgood h7
              have h6c : w.queryIter ("SELECT COUNT(*) FROM ".toList ++ "dse_perf".toList
                  ++ '.' :: "user_io".toList) = (scan, close) := h6
              have s6 : (getRowCount w "dse_perf".toList "user_io".toList).2
                  = .ok (scan.getD 0) := by
                cases scan with
                | some rowCount => simp only [getRowCount, h6c, Option.getD_some]
                | none =>
                  rw [hgood rfl] at h6c
                  simp only [getRowCount, h6c, Option.getD_none]
              have s7 : (getStorageSpaceUtilization w).2
                  = .err ("failed to run df command: ".toList ++ e) := by
                simp only [getStorageSpaceUtilization, h7]
              have hmain : main w = (collectionSteps.take 7 ++
                  [.fatal ("Failed to get storage space utilization:".toList ++
                    "failed to run df command: ".toList ++ e)], .fatal) := by
                unfold main
                simp only [orFatal_of_ok _ _ s1, orFatal_of_ok _ _ s2, orFatal_of_ok _ _ s3,
                  orFatal_of_ok _ _ s4, orFatal_of_ok _ _ s5, orFatal_of_ok _ _ s6,
                  orFatal_of_err _ _ s7, createSession_events, cpuPercent_events,
                  virtualMemory_events, tablehistograms_events, compactionstats_events,
                  getRowCount_events, storage_events, List.getElem?_cons_zero, deferClose]
                rfl
              rw [hmain]
              exact ⟨rfl, rfl⟩

/-- Witness for C8: for each of the seven steps, in the world where exactly that external call
fails with the error `down`, the run is the calls up to that one followed by the fatal log
entry, and standard output is empty.  Evaluated directly: with no failing call the run returns
after seven writes, and with the failing call number 1 to 7 it ends in `log.Fatal`. -/
theorem main_fatal_at_failing_step_witness :
    (main (failingWorld 1)
      = ([.createSession "127.0.0.1".toList "go".toList,
          .fatal "Failed to connect to Cassandra:down".toList], .fatal) ∧
     stdout (main (failingWorld 1)).1 = []) ∧
    (main (failingWorld 2)
      = (collectionSteps.take 2 ++ [.fatal "Failed to get CPU usage:down".toList], .fatal) ∧
     stdout (main (failingWorld 2)).1 = []) ∧
    (main (failingWorld 3)
      = (collectionSteps.take 3 ++ [.fatal "Failed to get memory usage:down".toList], .fatal) ∧
     stdout (main (failingWorld 3)).1 = []) ∧
    (main (failingWorld 4)
      = (collectionSteps.take 4 ++ [.fatal
          "Failed to get tablehistograms:failed to run nodetool tablehistograms: down".toList],
          .fatal) ∧
     stdout (main (failingWorld 4)).1 = []) ∧
    (main (failingWorld 5)
      = (collectionSteps.take 5 ++ [.fatal
          "Failed to get compactionstats:failed to run nodetool compactionstats: down".toList],
          .fatal) ∧
     stdout (main (failingWorld 5)).1 = []) ∧
    (main (failingWorld 6)
      = (collectionSteps.take 6 ++ [.fatal "Failed to get row count:down".toList], .fatal) ∧
     stdout (main (failingWorld 6)).1 = []) ∧
    (main (failingWorld 7)
      = (collectionSteps.take 7 ++ [.fatal
          "Failed to get storage space utilization:failed to run df command: down".toList],
          .fatal) ∧
     stdout (main (failingWorld 7)).1 = []) ∧
    ((List.range 8).map (fun step => (main (failingWorld step)).2)
        = [.returned, .fatal, .fatal, .fatal, .fatal, .fatal, .fatal, .fatal] ∧
     (stdout (main (failingWorld 0)).1).length = 7) :=
  ⟨(main_fatal_at_failing_step (failingWorld 1) "down".toList).1 rfl,
   ((main_fatal_at_failing_step (failingWorld 2) "down".toList).2 rfl).1 rfl,
   (((main_fatal_at_failing_step (failingWorld 3) "down".toList).2 rfl).2
      "12.34%".toList [] rfl).1 rfl,
   ((((main_fatal_at_failing_step (failingWorld 4) "down".toList).2 rfl).2
      "12.34%".toList [] rfl).2 "56.78%".toList rfl).1 rfl,
   (((((main_fatal_at_failing_step (failingWorld 5) "down".toList).2 rfl).2
      "12.34%".toList [] rfl).2 "56.78%".toList rfl).2
      "Read latency histogram: 5 ms".toList rfl).1 rfl,
   ((((((main_fatal_at_failing_step (failingWorld 6) "down".toList).2 rfl).2
      "12.34%".toList [] rfl).2 "56.78%".toList rfl).2
      "Read latency histogram: 5 ms".toList rfl).2 "pending tasks: 7".toList rfl).1 rfl,
   ((((((main_fatal_at_failing_step (failingWorld 7) "down".toList).2 rfl).2
      "12.34%".toList [] rfl).2 "56.78%".toList rfl).2
      "Read latency histogram: 5 ms".toList rfl).2 "pending tasks: 7".toList rfl).2
      (some 3) none rfl (by decide) rfl,
   by decide⟩

end CassandraStats
